import Mathlib

/-!
# Verification of the book-catalog repository variants

Shallow embedding of the date-parsing, pagination, CRUD and
microservice-simulation logic of the repository's six Python files,
together with proofs deciding the specification's testable properties.

Conventions of the embedding:
* Python `int`s are `Int` (or `Nat` where the source value is a row id),
  Python `str` is `String`, Python `bytes` is `List Nat` (each entry a
  byte value `< 256`), `None`-able values are `Option`s.
* A Python function that may raise and is always called under `try`
  returns an `Option` (`none` = the exception path).
* Character classes come from the source's regular expressions; `\d` is
  modelled as the ASCII digits `'0'..'9'`.
-/

/-- A Python `datetime.date` value (proleptic Gregorian calendar). -/
structure PyDate where
  year : Nat
  month : Nat
  day : Nat
deriving DecidableEq, Repr

/-- Gregorian leap-year rule used by Python's `datetime`. -/
def isLeapYear (y : Nat) : Bool :=
  y % 4 == 0 && (y % 100 != 0 || y % 400 == 0)

/-- Days in a month, per Python's `calendar`/`datetime`. -/
def daysInMonth (y m : Nat) : Nat :=
  if m == 2 then (if isLeapYear y then 29 else 28)
  else if m == 4 || m == 6 || m == 9 || m == 11 then 30
  else 31

/-- Validity test of `datetime.date(y, m, d)`: `MINYEAR = 1`,
`MAXYEAR = 9999`, month in `1..12`, day in `1..daysInMonth`. -/
def dateValid (y m d : Nat) : Bool :=
  1 ≤ y && y ≤ 9999 && 1 ≤ m && m ≤ 12 && 1 ≤ d && d ≤ daysInMonth y m

/-- Models the Python constructor `datetime.date(y, m, d)`:
`some` date on success, `none` for the `ValueError` path. -/
def mkDate (y m d : Nat) : Option PyDate :=
  if dateValid y m d then some ⟨y, m, d⟩ else none

/-- Python `date` comparison (lexicographic on year, month, day). -/
def dateLe (a b : PyDate) : Bool :=
  a.year < b.year ||
    (a.year == b.year &&
      (a.month < b.month || (a.month == b.month && a.day ≤ b.day)))

/-- The `\d` character class of the sources' `^\d{8}$` regexes,
restricted to ASCII.  Python's `\d` (and likewise `int()` and
`strptime`) additionally accepts every non-ASCII Unicode decimal digit;
the embedding and all theorems about the parsers are therefore
restricted to ASCII input strings, on which `\d` is exactly `'0'..'9'`. -/
def isDig (c : Char) : Bool := '0' ≤ c && c ≤ '9'

/-- Numeric value of an ASCII digit character. -/
def digVal (c : Char) : Nat := c.toNat - 48

/-- Python whitespace (the characters `str.strip()` removes). -/
def isPySpace (c : Char) : Bool :=
  c == ' ' || c == '\t' || c == '\n' || c == '\r' || c == '\x0b' || c == '\x0c'

/-- Value of a digit string, as computed by Python `int(...)` on an
all-digit slice. -/
def digitsToNat (cs : List Char) : Nat :=
  cs.foldl (fun acc c => acc * 10 + digVal c) 0

/-- Python `re.match(r"^\d{8}$", s)` on an ASCII string.  `$` matches at
the end of the string *or just before one final newline*, so the regex
accepts eight digits optionally followed by a single trailing `'\n'`. -/
def reMatch8d (cs : List Char) : Bool :=
  (cs.length == 8 && cs.all isDig) ||
    (cs.length == 9 && (cs.take 8).all isDig && cs.getLast? == some '\n')

/-- `parse_yyyymmdd` of `CHATGPT_book_catalog_secure_code_2.py` (lines
94-105): empty or non-`^\d{8}$` input gives `None`, otherwise
`date(int(s[0:4]), int(s[4:6]), int(s[6:8]))` under `try/except
ValueError`.  Note the slices read only the first eight characters, so
an accepted trailing newline never reaches `int()`. -/
def parse_yyyymmdd (s : String) : Option PyDate :=
  if s.isEmpty then none
  else
    let cs := s.toList
    if reMatch8d cs then
      mkDate (digitsToNat (cs.take 4)) (digitsToNat ((cs.drop 4).take 2))
        (digitsToNat ((cs.drop 6).take 2))
    else none

/-!
## CPython `strptime` model

`book_catalog_original.py` parses with `datetime.strptime(s, '%Y%m%d')`
(after an anchored `^\d{8}$` pre-check) and
`CHATGPT_book_catalog_secure_code_4.py` tries `"%Y%m%d"` then
`"%Y-%m-%d"` with no pre-check.  CPython's `_strptime` compiles the
format to a regular expression — `%Y ↦ \d\d\d\d`,
`%m ↦ 1[0-2]|0[1-9]|[1-9]`, `%d ↦ 3[01]|[12]\d|0[1-9]|[1-9]` — takes the
first (leftmost, alternation-ordered, backtracking) match, then raises
`ValueError` when the match does not consume the whole string, and
finally builds the `datetime`, which validates the calendar date.
-/

/-- Ordered candidate list of the `%m` regex `1[0-2]|0[1-9]|[1-9]`:
each candidate is the parsed month with the remaining characters. -/
def monthCands : List Char → List (Nat × List Char)
  | [] => []
  | [c] => if '1' ≤ c && c ≤ '9' then [(digVal c, [])] else []
  | a :: b :: rest =>
    (if a == '1' && ('0' ≤ b && b ≤ '2') then [(10 + digVal b, rest)] else []) ++
    (if a == '0' && ('1' ≤ b && b ≤ '9') then [(digVal b, rest)] else []) ++
    (if '1' ≤ a && a ≤ '9' then [(digVal a, b :: rest)] else [])

/-- Ordered candidate list of the `%d` regex `3[01]|[12]\d|0[1-9]|[1-9]`. -/
def dayCands : List Char → List (Nat × List Char)
  | [] => []
  | [c] => if '1' ≤ c && c ≤ '9' then [(digVal c, [])] else []
  | a :: b :: rest =>
    (if a == '3' && ('0' ≤ b && b ≤ '1') then [(30 + digVal b, rest)] else []) ++
    (if ('1' ≤ a && a ≤ '2') && isDig b then [(digVal a * 10 + digVal b, rest)] else []) ++
    (if a == '0' && ('1' ≤ b && b ≤ '9') then [(digVal b, rest)] else []) ++
    (if '1' ≤ a && a ≤ '9' then [(digVal a, b :: rest)] else [])

/-- The `%Y` regex `\d\d\d\d`: exactly four digits. -/
def matchY : List Char → Option (Nat × List Char)
  | a :: b :: c :: d :: rest =>
    if isDig a && isDig b && isDig c && isDig d then
      some (digitsToNat [a, b, c, d], rest)
    else none
  | _ => none

/-- First complete regex match of `%m%d` against `cs`: the engine
backtracks over month alternatives while the day fails to match, and the
day — being the final pattern element — keeps its first alternative. -/
def matchMD (cs : List Char) : Option (Nat × Nat × List Char) :=
  (monthCands cs).findSome? fun mc =>
    (dayCands mc.2).head?.map fun dc => (mc.1, dc.1, dc.2)

/-- `datetime.strptime(s, "%Y%m%d").date()`: first regex match, then the
whole-string-consumed check, then `date` construction. -/
def strptimeYmd (s : String) : Option PyDate :=
  match matchY s.toList with
  | none => none
  | some (y, rest) =>
    match matchMD rest with
    | none => none
    | some (m, d, rest2) => if rest2.isEmpty then mkDate y m d else none

/-- First complete regex match of `%m-%d` (month candidate must be
followed by a literal `'-'`; the engine backtracks over months until the
dash and a day alternative match). -/
def matchM_D (cs : List Char) : Option (Nat × Nat × List Char) :=
  (monthCands cs).findSome? fun mc =>
    match mc.2 with
    | '-' :: rest2 => (dayCands rest2).head?.map fun dc => (mc.1, dc.1, dc.2)
    | _ => none

/-- `datetime.strptime(s, "%Y-%m-%d").date()`. -/
def strptimeY_m_d (s : String) : Option PyDate :=
  match matchY s.toList with
  | some (y, '-' :: rest) =>
    match matchM_D rest with
    | none => none
    | some (m, d, rest2) => if rest2.isEmpty then mkDate y m d else none
  | _ => none

/-- `parse_api_date` of `book_catalog_original.py` (lines 82-91): `None`
for empty input, `None` unless the `^\d{8}$` regex matches (which also
admits one trailing newline), then `datetime.strptime(s,
'%Y%m%d').date()` under `try/except` — whose whole-string-consumed check
rejects the trailing-newline inputs the regex let through. -/
def parse_api_date (s : String) : Option PyDate :=
  if s.isEmpty then none
  else
    let cs := s.toList
    if reMatch8d cs then strptimeYmd s
    else none

/-- `parse_yyyymmdd` of `CHATGPT_book_catalog_secure_code_4.py` (lines
115-131): reject empty, strip, try `strptime` with `"%Y%m%d"` then
`"%Y-%m-%d"`, and finally fall back to `dateutil.parser.parse`.  The
`dateutil` fallback (an external library) is a parameter `fb`; `none`
models the `ValueError` raise. -/
def parse_yyyymmdd_v4 (fb : String → Option PyDate) (s : String) : Option PyDate :=
  if s.isEmpty then none
  else
    let t := String.mk (((s.toList.dropWhile isPySpace).reverse.dropWhile isPySpace).reverse)
    match strptimeYmd t with
    | some d => some d
    | none =>
      match strptimeY_m_d t with
      | some d => some d
      | none => fb t

/-- The specification's date parser, written from the spec's words: "for
all valid 8-digit strings `YYYYMMDD` representing a real calendar date,
the date parser returns that date; for all other strings it returns a
failure/None".  A real calendar date has year ≥ 1, month in `1..12` and
day in `1..daysInMonth`. -/
def dateSpecParse (s : String) : Option PyDate :=
  let cs := s.toList
  if cs.length = 8 ∧ cs.all isDig then
    let y := digitsToNat (cs.take 4)
    let m := digitsToNat ((cs.drop 4).take 2)
    let d := digitsToNat (cs.drop 6)
    if 1 ≤ y ∧ 1 ≤ m ∧ m ≤ 12 ∧ 1 ≤ d ∧ d ≤ daysInMonth y m then
      some ⟨y, m, d⟩
    else none
  else none

/-- Removal of at most one string-final newline — the exact extra
latitude the regex anchor `$` grants `parse_yyyymmdd` over the
specification's parser. -/
def stripFinalNewline (s : String) : String :=
  if s.toList.getLast? == some '\n' then String.mk s.toList.dropLast else s

/-!
## String helpers shared by the route embeddings
-/

/-- Python slice truncation `s[:n]`. -/
def strTake (s : String) (n : Nat) : String := String.mk (s.toList.take n)

/-- Python `str.strip()` (whitespace removed at both ends). -/
def strStrip (s : String) : String :=
  String.mk (((s.toList.dropWhile isPySpace).reverse.dropWhile isPySpace).reverse)

/-- Digit character of a value `< 10`. -/
def digitChar (n : Nat) : Char := Char.ofNat (48 + n)

/-- Decimal digits of a `Nat` (fuel-structured so that the kernel can
evaluate it). -/
def natDigitsAux : Nat → Nat → List Char
  | 0, _ => []
  | fuel + 1, n =>
    if n < 10 then [digitChar n]
    else natDigitsAux fuel (n / 10) ++ [digitChar (n % 10)]

/-- Python `str(n)` for a non-negative integer. -/
def natToStr (n : Nat) : String := String.mk (natDigitsAux (n + 1) n)

/-- Python `str(n)` for an `int`. -/
def intToStr (n : Int) : String :=
  if n < 0 then "-" ++ natToStr n.natAbs else natToStr n.natAbs

/-!
## Query-argument and pagination models
-/

/-- Result of applying Python `int(...)` to an optional query argument:
the argument was absent, was present but not an integer literal
(`ValueError`), or parsed to a value. -/
inductive IntArg where
  | missing
  | bad
  | val (n : Int)
deriving DecidableEq, Repr

/-- `paginate_query` of `book_catalog_original.py` (lines 94-102),
restricted to its parameter computation: `limit = int(args.get('limit',
10))`, `offset = int(args.get('offset', 0))`, with a shared
`try/except ValueError` that falls back to `(10, 0)`.  Returns the
effective `(limit, offset)` handed to `q.limit(limit).offset(offset)` —
no clamping of either value. -/
def paginateParams (limitArg offsetArg : IntArg) : Int × Int :=
  match limitArg, offsetArg with
  | .bad, _ => (10, 0)
  | _, .bad => (10, 0)
  | la, oa =>
    (match la with | .val n => n | _ => 10,
     match oa with | .val n => n | _ => 0)

/-- Effective limit of `api_books_collection` in
`CHATGPT_book_catalog_secure_code_3.py` line 771:
`min(int(args.get('limit', DEFAULT_PAGE_SIZE)), MAX_PAGE_SIZE)` with
`DEFAULT_PAGE_SIZE = 10`, `MAX_PAGE_SIZE = 100` (a non-integer argument
raises out of the handler and never reaches the query). -/
def v3Limit (limitArg : Option Int) : Int := min (limitArg.getD 10) 100

/-- Effective offset of `api_books_collection` in
`CHATGPT_book_catalog_secure_code_3.py` line 772:
`max(int(args.get('offset', 0)), 0)`. -/
def v3Offset (offsetArg : Option Int) : Int := max (offsetArg.getD 0) 0

/-- `clamp_limit` of `CHATGPT_book_catalog_secure_code_4.py` (lines
103-112): `DEFAULT_LIMIT = 10` for an absent or malformed value or one
`< 1`, otherwise `min(limit, MAX_LIMIT)` with `MAX_LIMIT = 100`. -/
def clamp_limit (limitArg : IntArg) : Int :=
  match limitArg with
  | .missing => 10
  | .bad => 10
  | .val n => if n < 1 then 10 else min n 100

/-- Offset computation of `api_pagination_params` in
`CHATGPT_book_catalog_secure_code_4.py` (lines 393-401):
`int(args.get('offset', 0))`, negatives and exceptions give `0`. -/
def v4Offset (offsetArg : IntArg) : Int :=
  match offsetArg with
  | .missing => 0
  | .bad => 0
  | .val n => if n < 0 then 0 else n

/-!
## Book/Genre/Author rows and queries

SQL behaviour embedded here: `ORDER BY id` sorts rows ascending by
primary key; `LIMIT l OFFSET o` (`l, o ≥ 0`) keeps positions
`[o, o + l)`; a comparison with a NULL column is not satisfied.
-/

/-- A row of the `books` table of `CHATGPT_book_catalog_secure_code_2.py`
(lines 69-77); `remove_3.py` declares the same columns. -/
structure BookRow where
  id : Nat
  title : String
  author : String
  genre : String
  publication : String
  pubDate : Option PyDate
  descr : String
deriving DecidableEq, Repr

/-- `Book.to_dict()` output of `CHATGPT_book_catalog_secure_code_2.py`
(lines 79-88); the date serializes with `strftime("%Y-%m-%d")` and a
NULL date serializes as `""`. -/
structure BookDictV2 where
  id : Nat
  title : String
  author : String
  genre : String
  publication : String
  pubDateStr : String
  descr : String
deriving DecidableEq, Repr

/-- Zero-padded two-digit field of `strftime`. -/
def pad2 (n : Nat) : String := if n < 10 then "0" ++ natToStr n else natToStr n

/-- Zero-padded four-digit year of `strftime("%Y...")`. -/
def pad4 (n : Nat) : String :=
  if n < 10 then "000" ++ natToStr n
  else if n < 100 then "00" ++ natToStr n
  else if n < 1000 then "0" ++ natToStr n
  else natToStr n

/-- `d.strftime("%Y-%m-%d")`. -/
def formatIsoDate (d : PyDate) : String :=
  pad4 d.year ++ "-" ++ pad2 d.month ++ "-" ++ pad2 d.day

/-- `Book.to_dict()` of `CHATGPT_book_catalog_secure_code_2.py`. -/
def toDictV2 (b : BookRow) : BookDictV2 :=
  { id := b.id
    title := b.title
    author := b.author
    genre := b.genre
    publication := b.publication
    pubDateStr := match b.pubDate with
      | some d => formatIsoDate d
      | none => ""
    descr := b.descr }

/-- `ORDER BY Book_ID` ascending. -/
def sortBooks (rows : List BookRow) : List BookRow :=
  List.insertionSort (fun a b => a.id ≤ b.id) rows

/-- The two optional date filters of the book list endpoints
(`Book_Publication_Date >= after` / `<= before`, each applied only when
the parsed date is present); a NULL stored date satisfies neither. -/
def filterByDates (after before : Option PyDate) (rows : List BookRow) : List BookRow :=
  let q1 := match after with
    | some a => rows.filter (fun b => match b.pubDate with
        | some dd => dateLe a dd
        | none => false)
    | none => rows
  match before with
  | some bd => q1.filter (fun b => match b.pubDate with
      | some dd => dateLe dd bd
      | none => false)
  | none => q1

/-- `LIMIT l OFFSET o` for non-negative `l, o`. -/
def sqlWindow (l o : Nat) (rows : List α) : List α := (rows.drop o).take l

/-- An API response: an error status with message, or a JSON value. -/
inductive ApiR (α : Type) where
  | err (status : Nat) (msg : String)
  | ok (val : α)
deriving DecidableEq, Repr

/-!
## REST endpoints of `CHATGPT_book_catalog_secure_code_2.py`
-/

/-- Database of the v2 variant: the `books` rows plus the autoincrement
counter that SQLite assigns to the next inserted row. -/
structure DbV2 where
  books : List BookRow
  nextId : Nat
deriving Repr

/-- JSON body of a v2 book POST/PUT request.  A field is `some v` when
the key is present with string value `v` and `none` when absent. -/
structure BookPayload where
  title : Option String := none
  author : Option String := none
  genre : Option String := none
  publication : Option String := none
  pubDateStr : Option String := none
  descr : Option String := none
deriving Repr

/-- `GET /api/v1/books` of `CHATGPT_book_catalog_secure_code_2.py`
(lines 925-946): parse `limit`/`offset` (`400` on a malformed or
negative value), parse the date filters with `parse_yyyymmdd` (`400` on
a present-but-invalid one), then
`q.order_by(Book_ID).offset(offset).limit(limit)` and serialize each row
with `to_dict`. -/
def v2BooksGet (db : DbV2) (limitArg offsetArg : IntArg)
    (afterRaw beforeRaw : Option String) : ApiR (List BookDictV2) :=
  match limitArg, offsetArg with
  | .bad, _ => .err 400 "limit and offset must be integers"
  | _, .bad => .err 400 "limit and offset must be integers"
  | la, oa =>
    let limit : Int := match la with | .val n => n | _ => 10
    let offset : Int := match oa with | .val n => n | _ => 0
    if limit < 0 || offset < 0 then
      .err 400 "limit and offset must be non-negative"
    else
      let beforeDt := match beforeRaw with
        | some s => if s.isEmpty then none else parse_yyyymmdd s
        | none => none
      let afterDt := match afterRaw with
        | some s => if s.isEmpty then none else parse_yyyymmdd s
        | none => none
      if (beforeRaw.getD "" ≠ "" ∧ beforeDt = none) ∨
          (afterRaw.getD "" ≠ "" ∧ afterDt = none) then
        .err 400 "Invalid date format. Use yyyymmdd"
      else
        .ok ((sqlWindow limit.toNat offset.toNat
          (sortBooks (filterByDates afterDt beforeDt db.books))).map toDictV2)

/-- Publication-date parsing shared by the v2 book POST and PUT bodies:
`parse_yyyymmdd(s)` or else `datetime.strptime(s, "%Y-%m-%d")` under
`try/except`. -/
def v2ParseBodyDate (s : String) : Option PyDate :=
  match parse_yyyymmdd s with
  | some d => some d
  | none => strptimeY_m_d s

/-- `POST /api/v1/books` of `CHATGPT_book_catalog_secure_code_2.py`
(lines 947-987): the three required fields must be present and truthy,
an optional non-empty `Book_Publication_Date` must parse, and the new
row stores the stripped/truncated fields.  Returns the response and the
resulting database. -/
def v2BooksPost (db : DbV2) (p : BookPayload) : ApiR BookDictV2 × DbV2 :=
  let requiredMissing :=
    p.title.getD "" = "" ∨ p.author.getD "" = "" ∨ p.genre.getD "" = ""
  let dateGiven := p.pubDateStr.getD "" ≠ ""
  let parsedDate := if dateGiven then v2ParseBodyDate (p.pubDateStr.getD "") else none
  let dateBad := dateGiven ∧ parsedDate = none
  if requiredMissing ∨ dateBad then
    (.err 400 "validation failed", db)
  else
    let b : BookRow :=
      { id := db.nextId
        title := strTake (strStrip (p.title.getD "")) 300
        author := strTake (strStrip (p.author.getD "")) 120
        genre := strTake (strStrip (p.genre.getD "")) 120
        publication := strTake (p.publication.getD "") 200
        pubDate := parsedDate
        descr := strTake (p.descr.getD "") 2000 }
    (.ok (toDictV2 b), { books := db.books ++ [b], nextId := db.nextId + 1 })

/-- `GET /api/v1/books/<id>` of `CHATGPT_book_catalog_secure_code_2.py`
(lines 989-995): `Book.query.get` then `to_dict`, or 404. -/
def v2BookItemGet (books : List BookRow) (bookId : Nat) : ApiR BookDictV2 :=
  match books.find? (fun b => b.id == bookId) with
  | none => .err 404 "Book not found"
  | some b => .ok (toDictV2 b)

/-- The updated row a v2 `PUT /api/v1/books/<id>` body produces from an
existing row: each present field replaces the stored one (with the
source's `str(...)[:n]` truncation); a present publication date stores
the parsed date, which is `None` when the value is the empty string. -/
def v2ApplyPut (b : BookRow) (p : BookPayload) : BookRow :=
  { id := b.id
    title := match p.title with
      | some t => strTake t 300
      | none => b.title
    author := match p.author with
      | some a => strTake a 120
      | none => b.author
    genre := match p.genre with
      | some g => strTake g 120
      | none => b.genre
    publication := match p.publication with
      | some v => strTake v 200
      | none => b.publication
    pubDate := match p.pubDateStr with
      | some s => v2ParseBodyDate s
      | none => b.pubDate
    descr := match p.descr with
      | some v => strTake v 2000
      | none => b.descr }

/-- Validation errors collected by the v2 book PUT body (lines
996-1037): a present-but-empty `Book_Title`/`Book_Author`/`Book_Genre`,
or a present non-empty `Book_Publication_Date` that parses with neither
accepted format. -/
def v2PutHasErrors (p : BookPayload) : Prop :=
  (∃ t, p.title = some t ∧ t = "") ∨
  (∃ a, p.author = some a ∧ a = "") ∨
  (∃ g, p.genre = some g ∧ g = "") ∨
  (∃ s, p.pubDateStr = some s ∧ s ≠ "" ∧ v2ParseBodyDate s = none)

instance (p : BookPayload) : Decidable (v2PutHasErrors p) := by
  unfold v2PutHasErrors
  have : ∀ o : Option String, Decidable (∃ t, o = some t ∧ t = "") := by
    intro o
    rcases o with _ | t
    · exact .isFalse (by simp)
    · exact decidable_of_iff (t = "") (by simp)
  have hd : Decidable (∃ s, p.pubDateStr = some s ∧ s ≠ "" ∧ v2ParseBodyDate s = none) := by
    rcases h : p.pubDateStr with _ | s
    · exact .isFalse (by simp)
    · exact decidable_of_iff (s ≠ "" ∧ v2ParseBodyDate s = none) (by simp)
  exact instDecidableOr

/-- `PUT /api/v1/books/<id>` of `CHATGPT_book_catalog_secure_code_2.py`
(lines 996-1042): 404 when the id is unknown, 400 when the body fails
validation (the request then leaves the stored rows unchanged — the
session is never committed and is rolled back at request teardown),
otherwise the row is replaced and echoed back with `to_dict` at status
200. -/
def v2BookItemPut (books : List BookRow) (bookId : Nat) (p : BookPayload) :
    ApiR BookDictV2 × List BookRow :=
  match books.find? (fun b => b.id == bookId) with
  | none => (.err 404 "Book not found", books)
  | some b =>
    if v2PutHasErrors p then
      (.err 400 "validation failed", books)
    else
      let b' := v2ApplyPut b p
      (.ok (toDictV2 b'),
        books.map (fun x => if x.id == bookId then b' else x))

/-- `DELETE /api/v1/books/<id>` of `CHATGPT_book_catalog_secure_code_2.py`
(lines 1043-1053): 404 when the id is unknown, otherwise the found row is
deleted and `{}` is returned with status 204. -/
def v2BookItemDelete (books : List BookRow) (bookId : Nat) :
    Nat × List BookRow :=
  match books.find? (fun b => b.id == bookId) with
  | none => (404, books)
  | some _ => (204, books.eraseP (fun b => b.id == bookId))

/-- A row of the v2 `genres` table (`Genre_Name` carries a UNIQUE
constraint); also used for the v2 `authors` table, whose shape and
endpoints are identical up to field names and truncation widths. -/
structure NamedRow where
  id : Nat
  name : String
  descr : String
deriving DecidableEq, Repr

/-- `POST /api/v1/genres` of `CHATGPT_book_catalog_secure_code_2.py`
(lines 1068-1086): `name = payload.get("Genre_Name","").strip()`, 400
when empty, insert `Genre(Genre_Name=name[:120], ...)`; the UNIQUE
constraint on `Genre_Name` makes the commit raise `IntegrityError` when
another row stores the same name, which rolls back and answers 409.
Returns `(status, rows)`. -/
def v2GenresPost (rows : List NamedRow) (nextId : Nat)
    (nameArg descArg : Option String) : Nat × List NamedRow :=
  let name := strStrip (nameArg.getD "")
  let descr := if descArg.getD "" = "" then "" else strStrip (descArg.getD "")
  if name = "" then (400, rows)
  else
    let stored := strTake name 120
    if rows.any (fun g => g.name == stored) then (409, rows)
    else (201, rows ++ [⟨nextId, stored, strTake descr 500⟩])

/-- `PUT /api/v1/genres/<id>` of `CHATGPT_book_catalog_secure_code_2.py`
(lines 1105-1119): a present `Genre_Name` must be truthy (else 400) and
is stored as `payload["Genre_Name"][:120]` — without stripping; a
present description is truncated to 500.  A name collision with another
row raises `IntegrityError` → rollback → 409. -/
def v2GenrePut (rows : List NamedRow) (genreId : Nat)
    (nameArg descArg : Option String) : Nat × List NamedRow :=
  match rows.find? (fun g => g.id == genreId) with
  | none => (404, rows)
  | some g =>
    match nameArg with
    | some n =>
      if n = "" then (400, rows)
      else
        let g' : NamedRow :=
          { id := g.id
            name := strTake n 120
            descr := match descArg with
              | some d => strTake d 500
              | none => g.descr }
        if rows.any (fun x => x.id ≠ g.id ∧ x.name == g'.name) then (409, rows)
        else (200, rows.map (fun x => if x.id == genreId then g' else x))
    | none =>
      let g' : NamedRow :=
        { g with descr := match descArg with
            | some d => strTake d 500
            | none => g.descr }
      (200, rows.map (fun x => if x.id == genreId then g' else x))

/-- `POST /api/v1/authors` of `CHATGPT_book_catalog_secure_code_2.py`
(lines 1141-1158): same shape as the genre POST with `Author_Name[:120]`
and `Author_Bio[:2000]`. -/
def v2AuthorsPost (rows : List NamedRow) (nextId : Nat)
    (nameArg bioArg : Option String) : Nat × List NamedRow :=
  let name := strStrip (nameArg.getD "")
  let bio := if bioArg.getD "" = "" then "" else strStrip (bioArg.getD "")
  if name = "" then (400, rows)
  else
    let stored := strTake name 120
    if rows.any (fun a => a.name == stored) then (409, rows)
    else (201, rows ++ [⟨nextId, stored, strTake bio 2000⟩])

/-!
## `book_catalog_original.py`
-/

/-- A row of the original variant's `book` table (lines 46-56): the
author and genre are foreign keys and `pub_date` is NOT NULL. -/
structure BookO where
  id : Nat
  title : String
  authorId : Nat
  genreId : Nat
  pubDate : PyDate
  descr : String
deriving DecidableEq, Repr

/-- `ORDER BY Book.id` ascending for the original variant. -/
def sortBooksO (rows : List BookO) : List BookO :=
  List.insertionSort (fun a b => a.id ≤ b.id) rows

/-- The row list selected by `GET /api/v/books` of
`book_catalog_original.py` (lines 563-578): optional
`parse_api_date` filters (`pub_date >= after` / `<= before`),
`int`-parsed `limit`/`offset` falling back to `(10, 0)` on a
`ValueError`, then `q.order_by(Book.id).limit(limit).offset(offset)`.
The route serializes these rows in order with `to_dict`; negative SQL
arguments keep SQLite's semantics (negative LIMIT = no limit, negative
OFFSET = 0). -/
def originalBooksRows (rows : List BookO) (afterRaw beforeRaw : Option String)
    (limitArg offsetArg : IntArg) : List BookO :=
  let after := match afterRaw with
    | some s => parse_api_date s
    | none => none
  let before := match beforeRaw with
    | some s => parse_api_date s
    | none => none
  let q1 := match after with
    | some a => rows.filter (fun b => dateLe a b.pubDate)
    | none => rows
  let q2 := match before with
    | some bd => q1.filter (fun b => dateLe b.pubDate bd)
    | none => q1
  let lo := paginateParams limitArg offsetArg
  let dropped := (sortBooksO q2).drop lo.2.toNat
  if lo.1 < 0 then dropped else dropped.take lo.1.toNat

/-- `DELETE /api/v/books/<id>` of `book_catalog_original.py` (lines
605-615): `Book.query.get`, 404 when absent, otherwise delete + commit
and an empty 204 response. -/
def originalBookDelete (rows : List BookO) (bookId : Nat) : Nat × List BookO :=
  match rows.find? (fun b => b.id == bookId) with
  | none => (404, rows)
  | some _ => (204, rows.eraseP (fun b => b.id == bookId))

/-- `POST /api/v/genres` of `book_catalog_original.py` (lines 659-670):
`name = data.get('name','').strip()`, 400 when empty, 400 `"Genre
already exists"` when `Genre.query.filter_by(name=name).first()` finds a
row, otherwise insert (no truncation). -/
def originalGenresPost (rows : List NamedRow) (nextId : Nat)
    (nameArg descArg : Option String) : Nat × List NamedRow :=
  let name := strStrip (nameArg.getD "")
  if name = "" then (400, rows)
  else if rows.any (fun g => g.name == name) then (400, rows)
  else (201, rows ++ [⟨nextId, name, descArg.getD ""⟩])

/-!
## `remove_3.py`
-/

/-- The row list selected by `GET /api/v/books` of `remove_3.py` (lines
899-924): `limit`/`offset` read with `type=int` (`None` on a missing or
malformed value, and `offset_raw or 0`), the query filtered and ordered
as in v2, but `q.limit` is applied only when `limit_raw` is truthy and
positive, and `q.offset` only when `offset_raw` is positive — so
`limit=0` (or a missing/negative limit) returns all remaining rows. -/
def remove3BooksRows (rows : List BookRow) (after before : Option PyDate)
    (limitRaw offsetRaw : Option Int) : List BookRow :=
  let sorted := sortBooks (filterByDates after before rows)
  let o : Int := offsetRaw.getD 0
  let l1 := if 0 < o then sorted.drop o.toNat else sorted
  match limitRaw with
  | some l => if l ≠ 0 ∧ 0 < l then l1.take l.toNat else l1
  | none => l1

/-!
## `Mansour_Microservcies_1.py` — HMAC-signed messages and replay nonces

The HMAC-SHA256 digest function itself (`hmac.new(key, msg,
hashlib.sha256).digest()`) is treated as a parameter `hm : List Nat →
List Nat → List Nat`; every theorem that needs its arithmetic-free
properties (digests are non-empty byte strings) takes them as
hypotheses, which hold of the real SHA-256.  Base64 is embedded
concretely so that the sign/verify round trip is provable.
-/

/-- The standard base64 alphabet. -/
def b64Alphabet : List Char :=
  "ABCDEFGHIJKLMNOPQRSTUVWXYZabcdefghijklmnopqrstuvwxyz0123456789+/".toList

/-- Sixtet value to base64 character. -/
def b64Char (n : Nat) : Char := b64Alphabet.getD n 'A'

/-- Base64 character to sixtet value. -/
def b64Index (c : Char) : Option Nat := List.findIdx? (fun x => x == c) b64Alphabet

/-- `base64.b64encode` on a byte list. -/
def b64encode : List Nat → List Char
  | [] => []
  | [a] => [b64Char (a / 4), b64Char (a % 4 * 16), '=', '=']
  | [a, b] => [b64Char (a / 4), b64Char (a % 4 * 16 + b / 16), b64Char (b % 16 * 4), '=']
  | a :: b :: c :: rest =>
    b64Char (a / 4) :: b64Char (a % 4 * 16 + b / 16) ::
      b64Char (b % 16 * 4 + c / 64) :: b64Char (c % 64) :: b64encode rest

/-- `base64.b64decode` on a character list (`none` = the raised
`binascii.Error`). -/
def b64decode : List Char → Option (List Nat)
  | [] => some []
  | c0 :: c1 :: c2 :: c3 :: rest =>
    if c2 == '=' && c3 == '=' && rest.isEmpty then
      match b64Index c0, b64Index c1 with
      | some a, some b => if b % 16 == 0 then some [a * 4 + b / 16] else none
      | _, _ => none
    else if c3 == '=' && rest.isEmpty then
      match b64Index c0, b64Index c1, b64Index c2 with
      | some a, some b, some c =>
        if c % 4 == 0 then some [a * 4 + b / 16, b % 16 * 16 + c / 4] else none
      | _, _, _ => none
    else
      match b64Index c0, b64Index c1, b64Index c2, b64Index c3, b64decode rest with
      | some a, some b, some c, some d, some tail =>
        some ((a * 4 + b / 16) :: (b % 16 * 16 + c / 4) :: (c % 4 * 64 + d) :: tail)
      | _, _, _, _, _ => none
  | _ => none

/-- `hmac_sign` (lines 42-44): base64-encoded digest. -/
def hmac_sign (hm : List Nat → List Nat → List Nat)
    (key message : List Nat) : String :=
  String.mk (b64encode (hm key message))

/-- `hmac_verify` (lines 46-51): decode the signature (`False` on a
decode error) and compare digests with `hmac.compare_digest`. -/
def hmac_verify (hm : List Nat → List Nat → List Nat)
    (key message : List Nat) (signatureB64 : String) : Bool :=
  match b64decode signatureB64.toList with
  | none => false
  | some expected => hm key message == expected

/-- The `Message` dataclass (lines 57-64). -/
structure PyMessage where
  sender : String
  recipient : String
  payload : List (String × String)
  ts : Int
  nonce : String
  signature : Option String := none
deriving Repr

/-- One `"key":"value"` JSON member. -/
def jsonStrMember (k v : String) : String := "\"" ++ k ++ "\":\"" ++ v ++ "\""

/-- `json.dumps` of the string-valued payload dict with `sort_keys=True`
and separators `(',', ':')`. -/
def payloadJson (payload : List (String × String)) : String :=
  let sorted := List.insertionSort (fun a b : String × String => a.1 ≤ b.1) payload
  "\x7b" ++ String.intercalate "," (sorted.map (fun kv => jsonStrMember kv.1 kv.2)) ++ "\x7d"

/-- `Message.to_wire` (lines 66-75): canonical serialization of the five
core fields, keys sorted (`nonce, payload, recipient, sender, ts`),
compact separators, UTF-8 encoded. -/
def toWire (m : PyMessage) : List Nat :=
  ("\x7b" ++ jsonStrMember "nonce" m.nonce ++ ",\"payload\":" ++ payloadJson m.payload ++
    "," ++ jsonStrMember "recipient" m.recipient ++ "," ++ jsonStrMember "sender" m.sender ++
    ",\"ts\":" ++ intToStr m.ts ++ "\x7d").toList.map Char.toNat

/-- `Message.sign_with` (lines 77-79). -/
def signWith (hm : List Nat → List Nat → List Nat)
    (m : PyMessage) (key : List Nat) : PyMessage :=
  { m with signature := some (hmac_sign hm key (toWire m)) }

/-- `Message.verify_signature` (lines 81-84): an unset (or empty, hence
falsy) signature verifies as `False`. -/
def verifySignature (hm : List Nat → List Nat → List Nat)
    (m : PyMessage) (key : List Nat) : Bool :=
  match m.signature with
  | none => false
  | some s => if s.isEmpty then false else hmac_verify hm key (toWire m) s

/-- Mutable state of a `Service` (lines 88-96): the replay-protection
store `seen_nonces` is a Python dict, i.e. an insertion-ordered
association list with unique keys, and `allowed_skew = 60`. -/
structure ServiceState where
  name : String
  hmacKey : List Nat
  seenNonces : List (String × Int)
  allowedSkew : Int := 60
deriving Repr

/-- `min(self.seen_nonces, key=self.seen_nonces.get)`: the first key (in
insertion order) holding the minimal timestamp. -/
def minByVal : List (String × Int) → Option String
  | [] => none
  | kv :: rest =>
    some ((rest.foldl (fun best x => if x.2 < best.2 then x else best) kv).1)

/-- `del self.seen_nonces[k]`. -/
def removeKey (l : List (String × Int)) (k : String) : List (String × Int) :=
  l.eraseP (fun kv => kv.1 == k)

/-- `Service.verify_incoming` (lines 105-121), with the wall clock
`now_ts()` passed explicitly: signature check, freshness check
(`abs(now - ts) > allowed_skew`), nonce-replay check, then record the
nonce and — when the store exceeds 1000 entries — drop the entry with
the oldest timestamp.  Returns `((accepted, reason), new state)`. -/
def verifyIncoming (hm : List Nat → List Nat → List Nat)
    (st : ServiceState) (now : Int) (msg : PyMessage)
    (expectedSenderKey : List Nat) : (Bool × String) × ServiceState :=
  if !verifySignature hm msg expectedSenderKey then
    ((false, "invalid signature"), st)
  else if st.allowedSkew < (now - msg.ts).natAbs then
    ((false, "stale or future timestamp (ts=" ++ intToStr msg.ts ++ ")"), st)
  else if (st.seenNonces.find? (fun kv => kv.1 == msg.nonce)).isSome then
    ((false, "replay detected (nonce already seen)"), st)
  else
    let seen1 := st.seenNonces ++ [(msg.nonce, msg.ts)]
    let seen2 :=
      if 1000 < seen1.length then
        match minByVal seen1 with
        | some oldest => removeKey seen1 oldest
        | none => seen1
      else seen1
    ((true, "ok"), { st with seenNonces := seen2 })

/-- Folding `verify_incoming` over a sequence of later calls
`(now, message, sender key)`, keeping only the state. -/
def runTrace (hm : List Nat → List Nat → List Nat)
    (st : ServiceState) (calls : List (Int × PyMessage × List Nat)) : ServiceState :=
  calls.foldl (fun s c => (verifyIncoming hm s c.1 c.2.1 c.2.2).2) st

/-!
## Generic facts about the SQL window
-/

theorem sqlWindow_length (l o : Nat) (rows : List α) :
    (sqlWindow l o rows).length = min l (rows.length - o) := by
  simp [sqlWindow, List.length_take, List.length_drop]

theorem sqlWindow_getElem? (rows : List α) (l o i : Nat) (h : i < l) :
    (sqlWindow l o rows)[i]? = rows[o + i]? := by
  simp [sqlWindow, List.getElem?_take, h, List.getElem?_drop]

theorem sqlWindow_getElem?_none (rows : List α) (l o i : Nat) (h : l ≤ i) :
    (sqlWindow l o rows)[i]? = none := by
  simp [sqlWindow, List.getElem?_take, Nat.not_lt.mpr h]

theorem sqlWindow_empty_of_le (rows : List α) (l o : Nat)
    (h : rows.length ≤ o) : sqlWindow l o rows = [] := by
  simp [sqlWindow, List.drop_eq_nil_of_le h]

instance : IsTotal BookRow (fun a b => a.id ≤ b.id) :=
  ⟨fun a b => Nat.le_total a.id b.id⟩

instance : IsTrans BookRow (fun a b => a.id ≤ b.id) :=
  ⟨fun _ _ _ hab hbc => Nat.le_trans hab hbc⟩

instance : IsTotal BookO (fun a b => a.id ≤ b.id) :=
  ⟨fun a b => Nat.le_total a.id b.id⟩

instance : IsTrans BookO (fun a b => a.id ≤ b.id) :=
  ⟨fun _ _ _ hab hbc => Nat.le_trans hab hbc⟩

theorem sortBooks_sorted (rows : List BookRow) :
    (sortBooks rows).Sorted (fun a b => a.id ≤ b.id) :=
  List.sorted_insertionSort _ rows

theorem sortBooks_perm (rows : List BookRow) : (sortBooks rows).Perm rows :=
  List.perm_insertionSort _ rows

theorem sortBooksO_sorted (rows : List BookO) :
    (sortBooksO rows).Sorted (fun a b => a.id ≤ b.id) :=
  List.sorted_insertionSort _ rows

theorem sortBooksO_perm (rows : List BookO) : (sortBooksO rows).Perm rows :=
  List.perm_insertionSort _ rows

/-- C4, counterexample.  The claim states that every API list request
runs its query with an effective `offset ≥ 0` and a limit clamped to an
application-defined maximum.  `paginate_query` of
`book_catalog_original.py` passes `offset=-5` straight through to the
query (and its `limit=1000000` is bounded by nothing). -/
theorem c4_counterexample :
    paginateParams (.val 1000000) (.val (-5)) = (1000000, -5) ∧
      ¬(0 ≤ (paginateParams (.val 1000000) (.val (-5))).2) := by
  decide

/-- C4, amended: the clamping the claim describes is real in variants 3
and 4 — `api_books_collection` (variant 3) forces `offset ≥ 0` and
`limit ≤ MAX_PAGE_SIZE = 100`, and `clamp_limit`/`api_pagination_params`
(variant 4) force `1 ≤ limit ≤ MAX_LIMIT = 100` and `offset ≥ 0` for
every argument including negative, huge and non-numeric ones — but
`book_catalog_original.py`'s `paginate_query` applies no bound at all. -/
theorem c4_amended_clamp (la : Option Int) (oa : Option Int) (a b : IntArg) :
    0 ≤ v3Offset oa ∧ v3Limit la ≤ 100 ∧
      1 ≤ clamp_limit a ∧ clamp_limit a ≤ 100 ∧ 0 ≤ v4Offset b := by
  refine ⟨le_max_right _ _, min_le_right _ _, ?_, ?_, ?_⟩
  · rcases a with _ | _ | n
    · decide
    · decide
    · simp only [clamp_limit]
      split
      · decide
      · exact le_min (by omega) (by omega)
  · rcases a with _ | _ | n
    · decide
    · decide
    · simp only [clamp_limit]
      split
      · decide
      · exact min_le_right _ _
  · rcases b with _ | _ | n
    · decide
    · decide
    · simp only [v4Offset]
      split
      · decide
      · omega

/-- The request body of the spec's round-trip scenario. -/
def c3Payload : BookPayload :=
  { title := some "T", author := some "A", genre := some "G",
    pubDateStr := some "20200101" }

/-- The serialized object both the POST response and the follow-up GET
return in the round-trip scenario. -/
def c3Dict (n : Nat) : BookDictV2 := ⟨n, "T", "A", "G", "", "2020-01-01", ""⟩

/-- C3: POSTing `Book_Title="T", Book_Author="A", Book_Genre="G",
Book_Publication_Date="20200101"` to the v2 books API succeeds (201 with
the created object), and a GET of the created id returns an object whose
`Book_Publication_Date` is the ISO serialization `"2020-01-01"` of the
stored date. -/
theorem c3_roundtrip (db : DbV2) (hfresh : ∀ b ∈ db.books, b.id ≠ db.nextId) :
    (v2BooksPost db c3Payload).1 = .ok (c3Dict db.nextId) ∧
      v2BookItemGet (v2BooksPost db c3Payload).2.books db.nextId =
        .ok (c3Dict db.nextId) ∧
      (c3Dict db.nextId).pubDateStr = "2020-01-01" := by
  have hpost : v2BooksPost db c3Payload =
      (.ok (c3Dict db.nextId),
        { books := db.books ++
            [⟨db.nextId, "T", "A", "G", "", some ⟨2020, 1, 1⟩, ""⟩],
          nextId := db.nextId + 1 }) := by
    have h1 : (⟨db.nextId, "T", "A", "G", "", some ⟨2020, 1, 1⟩, ""⟩ : BookRow) =
        { id := db.nextId
          title := strTake (strStrip ((c3Payload.title).getD "")) 300
          author := strTake (strStrip ((c3Payload.author).getD "")) 120
          genre := strTake (strStrip ((c3Payload.genre).getD "")) 120
          publication := strTake ((c3Payload.publication).getD "") 200
          pubDate :=
            if (c3Payload.pubDateStr.getD "" ≠ "") then
              v2ParseBodyDate (c3Payload.pubDateStr.getD "")
            else none
          descr := strTake ((c3Payload.descr).getD "") 2000 } := by
      simp only [BookRow.mk.injEq]
      and_intros <;> trivial
    have h2 : c3Dict db.nextId = toDictV2 ⟨db.nextId, "T", "A", "G", "", some ⟨2020, 1, 1⟩, ""⟩ := by
      simp [c3Dict, toDictV2]
      decide
    rw [v2BooksPost, if_neg (by decide), h2, h1]
  refine ⟨by rw [hpost], ?_, rfl⟩
  rw [hpost]
  show v2BookItemGet (db.books ++ [_]) db.nextId = _
  rw [v2BookItemGet, List.find?_append,
    List.find?_eq_none.mpr (fun x hx => by simpa using hfresh x hx)]
  simp [toDictV2, c3Dict]
  decide

/-- C3, witness: the round trip at the empty database. -/
theorem c3_roundtrip_witness :
    (v2BooksPost ⟨[], 1⟩ c3Payload).1 = .ok (c3Dict 1) ∧
      v2BookItemGet (v2BooksPost ⟨[], 1⟩ c3Payload).2.books 1 = .ok (c3Dict 1) ∧
      (c3Dict 1).pubDateStr = "2020-01-01" :=
  c3_roundtrip ⟨[], 1⟩ (by simp)

/-!
## Double deletion
-/

theorem filter_key_short {α β : Type} [DecidableEq β] (f : α → β) (c : β) :
    ∀ l : List α, (l.map f).Nodup → (l.filter (fun x => f x == c)).length ≤ 1 := by
  intro l
  induction l with
  | nil => simp
  | cons x xs ih =>
    intro hnd
    rw [List.map_cons, List.nodup_cons] at hnd
    by_cases hx : f x = c
    · have hrest : xs.filter (fun y => f y == c) = [] := by
        rw [List.filter_eq_nil_iff]
        intro y hy
        simp only [beq_iff_eq]
        intro hyc
        exact hnd.1 (by simpa [hx, hyc] using List.mem_map_of_mem f hy)
      simp [List.filter_cons, hx, hrest]
    · simpa [List.filter_cons, hx] using ih hnd.2

theorem find?_eraseP_none {α : Type} (p : α → Bool) :
    ∀ l : List α, (l.filter p).length ≤ 1 → (l.eraseP p).find? p = none := by
  intro l
  induction l with
  | nil => simp
  | cons x xs ih =>
    intro hlen
    by_cases hx : p x
    · have hrest : xs.filter p = [] := by
        rw [List.filter_cons_of_pos hx] at hlen
        simp only [List.length_cons] at hlen
        exact List.length_eq_zero.mp (by omega)
      rw [List.eraseP_cons_of_pos hx, List.find?_eq_none]
      intro y hy hpy
      have : y ∈ xs.filter p := List.mem_filter.mpr ⟨hy, hpy⟩
      simp [hrest] at this
    · have hx' : p x = false := by simpa using hx
      simp only [List.eraseP_cons_of_neg hx, List.find?_cons, hx']
      rw [List.filter_cons_of_neg hx] at hlen
      exact ih hlen

/-- C5: a second DELETE of the same id answers 404 through the
not-found branch and leaves the store unchanged, in the v2 variant
(`api_book_item`) and in the original variant (`api_book`).  The
hypothesis is the primary-key invariant: the stored ids are distinct. -/
theorem c5_double_delete :
    (∀ (books : List BookRow) (bookId : Nat),
      (books.map (fun b => b.id)).Nodup →
      (v2BookItemDelete books bookId).1 = 204 →
      v2BookItemDelete (v2BookItemDelete books bookId).2 bookId =
        (404, (v2BookItemDelete books bookId).2)) ∧
    (∀ (rows : List BookO) (bookId : Nat),
      (rows.map (fun b => b.id)).Nodup →
      (originalBookDelete rows bookId).1 = 204 →
      originalBookDelete (originalBookDelete rows bookId).2 bookId =
        (404, (originalBookDelete rows bookId).2)) := by
  constructor
  · intro books bookId hnd h204
    have hfind : (books.eraseP (fun b => b.id == bookId)).find?
        (fun b => b.id == bookId) = none :=
      find?_eraseP_none _ books (filter_key_short (fun b => b.id) bookId books hnd)
    rcases hf : books.find? (fun b => b.id == bookId) with _ | b
    · rw [v2BookItemDelete, hf] at h204
      simp at h204
    · have hdel : v2BookItemDelete books bookId =
          (204, books.eraseP (fun b => b.id == bookId)) := by
        rw [v2BookItemDelete, hf]
      rw [hdel, v2BookItemDelete, hfind]
  · intro rows bookId hnd h204
    have hfind : (rows.eraseP (fun b => b.id == bookId)).find?
        (fun b => b.id == bookId) = none :=
      find?_eraseP_none _ rows (filter_key_short (fun b => b.id) bookId rows hnd)
    rcases hf : rows.find? (fun b => b.id == bookId) with _ | b
    · rw [originalBookDelete, hf] at h204
      simp at h204
    · have hdel : originalBookDelete rows bookId =
          (204, rows.eraseP (fun b => b.id == bookId)) := by
        rw [originalBookDelete, hf]
      rw [hdel, originalBookDelete, hfind]

/-- C5, witness: deleting book 1 from a one-book store succeeds with
204, and repeating the DELETE answers 404 on the emptied store. -/
theorem c5_double_delete_witness :
    v2BookItemDelete
        (v2BookItemDelete [⟨1, "t", "a", "g", "", none, ""⟩] 1).2 1 =
      (404, (v2BookItemDelete [⟨1, "t", "a", "g", "", none, ""⟩] 1).2) :=
  c5_double_delete.1 [⟨1, "t", "a", "g", "", none, ""⟩] 1 (by decide) (by decide)

/-!
## Duplicate genre/author names
-/

/-- C6, counterexample.  The v2 genre PUT stores the raw (unstripped)
name, while the POST detects duplicates only after `strip()[:120]`
normalization.  Starting from one genre, a PUT renames it to `"a "`;
a POST whose `Genre_Name` equals that existing row's name `"a "` is then
*not* rejected: it answers 201 and inserts a second row — contradicting
the claim that a create matching an existing row's name answers 409/400
without mutating the stored rows. -/
theorem c6_counterexample :
    (v2GenrePut [⟨1, "x", ""⟩] 1 (some "a ") none).2 = [⟨1, "a ", ""⟩] ∧
      (∃ g ∈ (v2GenrePut [⟨1, "x", ""⟩] 1 (some "a ") none).2, g.name = "a ") ∧
      (v2GenresPost (v2GenrePut [⟨1, "x", ""⟩] 1 (some "a ") none).2 2
          (some "a ") none).1 = 201 ∧
      (v2GenresPost (v2GenrePut [⟨1, "x", ""⟩] 1 (some "a ") none).2 2
          (some "a ") none).2 ≠
        (v2GenrePut [⟨1, "x", ""⟩] 1 (some "a ") none).2 := by
  decide

/-- C6, amended: a Genre/Author create whose *normalized* name — the
value actually stored, i.e. `strip()[:120]` in variant 2 and `strip()`
in the original — equals the stored name of an existing row is rejected
(409 in variant 2 through the UNIQUE-constraint `IntegrityError`
rollback, 400 in the original through its explicit pre-check), and the
rejected request leaves the stored rows unchanged.  A raw name that
normalization alters (e.g. one with trailing whitespace) can evade the
check. -/
theorem c6_amended_duplicate_reject :
    (∀ (rows : List NamedRow) (nextId : Nat) (nameArg descArg : Option String),
      strStrip (nameArg.getD "") ≠ "" →
      (∃ g ∈ rows, g.name = strTake (strStrip (nameArg.getD "")) 120) →
      v2GenresPost rows nextId nameArg descArg = (409, rows)) ∧
    (∀ (rows : List NamedRow) (nextId : Nat) (nameArg bioArg : Option String),
      strStrip (nameArg.getD "") ≠ "" →
      (∃ a ∈ rows, a.name = strTake (strStrip (nameArg.getD "")) 120) →
      v2AuthorsPost rows nextId nameArg bioArg = (409, rows)) ∧
    (∀ (rows : List NamedRow) (nextId : Nat) (nameArg descArg : Option String),
      strStrip (nameArg.getD "") ≠ "" →
      (∃ g ∈ rows, g.name = strStrip (nameArg.getD "")) →
      originalGenresPost rows nextId nameArg descArg = (400, rows)) := by
  refine ⟨?_, ?_, ?_⟩
  · intro rows nextId nameArg descArg hne ⟨g, hg, hname⟩
    rw [v2GenresPost, if_neg hne, if_pos]
    exact List.any_eq_true.mpr ⟨g, hg, by simp [hname]⟩
  · intro rows nextId nameArg bioArg hne ⟨a, ha, hname⟩
    rw [v2AuthorsPost, if_neg hne, if_pos]
    exact List.any_eq_true.mpr ⟨a, ha, by simp [hname]⟩
  · intro rows nextId nameArg descArg hne ⟨g, hg, hname⟩
    rw [originalGenresPost, if_neg hne, if_pos]
    exact List.any_eq_true.mpr ⟨g, hg, by simp [hname]⟩

/-- C6, witness: a duplicate `"Fiction"` genre create answers 409 (v2)
and 400 (original), and a duplicate `"Ann"` author create answers 409,
each leaving the single stored row unchanged. -/
theorem c6_amended_duplicate_reject_witness :
    v2GenresPost [⟨1, "Fiction", ""⟩] 2 (some "Fiction") none =
        (409, [⟨1, "Fiction", ""⟩]) ∧
      v2AuthorsPost [⟨1, "Ann", ""⟩] 2 (some "Ann") none =
        (409, [⟨1, "Ann", ""⟩]) ∧
      originalGenresPost [⟨1, "Fiction", ""⟩] 2 (some "Fiction") none =
        (400, [⟨1, "Fiction", ""⟩]) :=
  ⟨c6_amended_duplicate_reject.1 [⟨1, "Fiction", ""⟩] 2 (some "Fiction") none
      (by decide) ⟨⟨1, "Fiction", ""⟩, by decide, by decide⟩,
    c6_amended_duplicate_reject.2.1 [⟨1, "Ann", ""⟩] 2 (some "Ann") none
      (by decide) ⟨⟨1, "Ann", ""⟩, by decide, by decide⟩,
    c6_amended_duplicate_reject.2.2 [⟨1, "Fiction", ""⟩] 2 (some "Fiction") none
      (by decide) ⟨⟨1, "Fiction", ""⟩, by decide, by decide⟩⟩

/-!
## Pagination windows of the list endpoints
-/

/-- C2, counterexample.  The claim asserts that for every `limit ≥ 0`
the GET list-books endpoint returns the index window
`[offset, offset + limit)` of the ordered filtered rows — which is empty
for `limit = 0`.  `api_books` of `remove_3.py` applies `q.limit` only
when the limit is truthy and positive, so `limit=0&offset=0` returns
*all* rows of a one-book store instead of the claimed empty window. -/
theorem c2_counterexample :
    remove3BooksRows [⟨1, "t", "a", "g", "", none, ""⟩] none none
        (some 0) (some 0) =
      [⟨1, "t", "a", "g", "", none, ""⟩] ∧
    remove3BooksRows [⟨1, "t", "a", "g", "", none, ""⟩] none none
        (some 0) (some 0) ≠
      sqlWindow 0 0 (sortBooks (filterByDates none none
        [⟨1, "t", "a", "g", "", none, ""⟩])) := by
  decide

/-- C2, amended: the claimed window semantics holds in full for the v2
and original variants — for `limit ≥ 0` and `offset ≥ 0` the GET books
endpoint returns exactly the rows of the filtered query, sorted by
ascending id, at positions `[offset, offset + limit)`, empty when the
offset is past the end — and for `remove_3.py` it holds for
`limit ≥ 1` (there `limit = 0` disables the LIMIT clause and returns
every remaining row). -/
theorem c2_amended_window :
    (∀ (db : DbV2) (l o : Int), 0 ≤ l → 0 ≤ o →
      v2BooksGet db (.val l) (.val o) none none =
        .ok ((sqlWindow l.toNat o.toNat (sortBooks db.books)).map toDictV2) ∧
      (sortBooks db.books).Sorted (fun a b => a.id ≤ b.id) ∧
      (sortBooks db.books).Perm db.books ∧
      (∀ i : Nat, i < l.toNat →
        (sqlWindow l.toNat o.toNat (sortBooks db.books))[i]? =
          (sortBooks db.books)[o.toNat + i]?) ∧
      (∀ i : Nat, l.toNat ≤ i →
        (sqlWindow l.toNat o.toNat (sortBooks db.books))[i]? = none) ∧
      ((sortBooks db.books).length ≤ o.toNat →
        sqlWindow l.toNat o.toNat (sortBooks db.books) = [])) ∧
    (∀ (rows : List BookO) (l o : Int), 0 ≤ l → 0 ≤ o →
      originalBooksRows rows none none (.val l) (.val o) =
        sqlWindow l.toNat o.toNat (sortBooksO rows) ∧
      (sortBooksO rows).Sorted (fun a b => a.id ≤ b.id) ∧
      (sortBooksO rows).Perm rows) ∧
    (∀ (rows : List BookRow) (after before : Option PyDate) (l o : Int),
      1 ≤ l → 0 ≤ o →
      remove3BooksRows rows after before (some l) (some o) =
        sqlWindow l.toNat o.toNat
          (sortBooks (filterByDates after before rows))) := by
  refine ⟨?_, ?_, ?_⟩
  · intro db l o hl ho
    refine ⟨?_, sortBooks_sorted _, sortBooks_perm _,
      fun i hi => sqlWindow_getElem? _ _ _ _ hi,
      fun i hi => sqlWindow_getElem?_none _ _ _ _ hi,
      fun h => sqlWindow_empty_of_le _ _ _ h⟩
    rw [v2BooksGet]
    rw [if_neg (by simp [not_lt.mpr hl, not_lt.mpr ho])]
    rw [if_neg (by simp)]
    rfl
  · intro rows l o hl ho
    refine ⟨?_, sortBooksO_sorted _, sortBooksO_perm _⟩
    rw [originalBooksRows]
    rw [if_neg (show ¬(paginateParams (.val l) (.val o)).1 < 0 by
      simp only [paginateParams]
      omega)]
    rfl
  · intro rows after before l o hl ho
    simp only [remove3BooksRows, Option.getD_some]
    rw [if_pos (show l ≠ 0 ∧ 0 < l by omega)]
    by_cases hpos : 0 < o
    · rw [if_pos hpos]
      rfl
    · have ho0 : o = 0 := le_antisymm (by omega) ho
      subst ho0
      rw [if_neg hpos]
      simp [sqlWindow]

/-- C2, witness: the amended window property at a two-book store with
`limit = 1`, `offset = 1`. -/
theorem c2_amended_window_witness :
    v2BooksGet ⟨[⟨2, "u", "b", "h", "", none, ""⟩,
        ⟨1, "t", "a", "g", "", none, ""⟩], 3⟩ (.val 1) (.val 1) none none =
      .ok ((sqlWindow 1 1 (sortBooks [⟨2, "u", "b", "h", "", none, ""⟩,
        ⟨1, "t", "a", "g", "", none, ""⟩])).map toDictV2) ∧
    remove3BooksRows [⟨1, "t", "a", "g", "", none, ""⟩] none none
        (some 1) (some 0) =
      sqlWindow 1 0 (sortBooks (filterByDates none none
        [⟨1, "t", "a", "g", "", none, ""⟩])) :=
  ⟨((c2_amended_window.1 ⟨[⟨2, "u", "b", "h", "", none, ""⟩,
      ⟨1, "t", "a", "g", "", none, ""⟩], 3⟩ 1 1 (by decide) (by decide)).1),
    c2_amended_window.2.2 [⟨1, "t", "a", "g", "", none, ""⟩] none none 1 0
      (by decide) (by decide)⟩

/-!
## Date-range filtering
-/

/-- C8: `after_date=20200101&before_date=20201231` on the v2 list
endpoint selects exactly the stored books whose (non-NULL) publication
date `d` satisfies `2020-01-01 ≤ d ≤ 2020-12-31`, both bounds inclusive;
every returned item comes from such a book, and the requested pagination
window over those ordered rows is returned position by position. -/
theorem c8_date_range_filter (db : DbV2) (l o : Int) (hl : 0 ≤ l) (ho : 0 ≤ o) :
    v2BooksGet db (.val l) (.val o) (some "20200101") (some "20201231") =
      .ok ((sqlWindow l.toNat o.toNat (sortBooks (filterByDates
        (some ⟨2020, 1, 1⟩) (some ⟨2020, 12, 31⟩) db.books))).map toDictV2) ∧
    (∀ x ∈ (sqlWindow l.toNat o.toNat (sortBooks (filterByDates
        (some ⟨2020, 1, 1⟩) (some ⟨2020, 12, 31⟩) db.books))).map toDictV2,
      ∃ b ∈ db.books, x = toDictV2 b ∧ ∃ dd, b.pubDate = some dd ∧
        dateLe ⟨2020, 1, 1⟩ dd = true ∧ dateLe dd ⟨2020, 12, 31⟩ = true) ∧
    (∀ i : Nat, i < l.toNat →
      (sqlWindow l.toNat o.toNat (sortBooks (filterByDates
        (some ⟨2020, 1, 1⟩) (some ⟨2020, 12, 31⟩) db.books)))[i]? =
        (sortBooks (filterByDates
          (some ⟨2020, 1, 1⟩) (some ⟨2020, 12, 31⟩) db.books))[o.toNat + i]?) := by
  refine ⟨?_, ?_, fun i hi => sqlWindow_getElem? _ _ _ _ hi⟩
  · have hpa : (if ("20200101" : String).isEmpty then none
        else parse_yyyymmdd "20200101") = some (⟨2020, 1, 1⟩ : PyDate) := by decide
    have hpb : (if ("20201231" : String).isEmpty then none
        else parse_yyyymmdd "20201231") = some (⟨2020, 12, 31⟩ : PyDate) := by decide
    simp only [v2BooksGet]
    rw [hpa, hpb]
    rw [if_neg (by simp [not_lt.mpr hl, not_lt.mpr ho])]
    rw [if_neg (by simp)]
  · intro x hx
    obtain ⟨b, hbw, rfl⟩ := List.mem_map.mp hx
    have hb1 : b ∈ sortBooks (filterByDates
        (some ⟨2020, 1, 1⟩) (some ⟨2020, 12, 31⟩) db.books) :=
      List.mem_of_mem_drop (List.mem_of_mem_take hbw)
    have hb2 : b ∈ filterByDates
        (some ⟨2020, 1, 1⟩) (some ⟨2020, 12, 31⟩) db.books :=
      (List.mem_insertionSort _).mp hb1
    have hb3 : b ∈ (db.books.filter (fun bk => match bk.pubDate with
          | some dd => dateLe ⟨2020, 1, 1⟩ dd
          | none => false)).filter (fun bk => match bk.pubDate with
          | some dd => dateLe dd ⟨2020, 12, 31⟩
          | none => false) := hb2
    have h4 := List.mem_filter.mp hb3
    have h5 := List.mem_filter.mp h4.1
    refine ⟨b, h5.1, rfl, ?_⟩
    rcases hbp : b.pubDate with _ | dd
    · rw [hbp] at h5
      simp at h5
    · refine ⟨dd, rfl, ?_, ?_⟩
      · have := h5.2
        rw [hbp] at this
        exact this
      · have := h4.2
        rw [hbp] at this
        exact this

/-- C8, witness: a store holding one book inside the range (June 2020)
and one outside (2019) returns exactly the 2020 book for
`limit = 10, offset = 0`. -/
theorem c8_date_range_filter_witness :
    v2BooksGet ⟨[⟨1, "in", "a", "g", "", some ⟨2020, 6, 1⟩, ""⟩,
        ⟨2, "out", "a", "g", "", some ⟨2019, 6, 1⟩, ""⟩], 3⟩
        (.val 10) (.val 0) (some "20200101") (some "20201231") =
      .ok ((sqlWindow 10 0 (sortBooks (filterByDates
        (some ⟨2020, 1, 1⟩) (some ⟨2020, 12, 31⟩)
        [⟨1, "in", "a", "g", "", some ⟨2020, 6, 1⟩, ""⟩,
          ⟨2, "out", "a", "g", "", some ⟨2019, 6, 1⟩, ""⟩]))).map toDictV2) :=
  (c8_date_range_filter ⟨[⟨1, "in", "a", "g", "", some ⟨2020, 6, 1⟩, ""⟩,
      ⟨2, "out", "a", "g", "", some ⟨2019, 6, 1⟩, ""⟩], 3⟩ 10 0
    (by decide) (by decide)).1

/-!
## Partial update
-/

/-- C7: a valid partial-update PUT on an existing v2 book answers 200
with the updated object serialized by `to_dict`, the stored row is
replaced accordingly, and every field absent from the request body keeps
exactly its previous value (the id never changes). -/
theorem c7_put_partial_update (books : List BookRow) (bookId : Nat)
    (p : BookPayload) (b : BookRow)
    (hfind : books.find? (fun x => x.id == bookId) = some b)
    (hvalid : ¬v2PutHasErrors p) :
    v2BookItemPut books bookId p =
      (.ok (toDictV2 (v2ApplyPut b p)),
        books.map (fun x => if x.id == bookId then v2ApplyPut b p else x)) ∧
    (v2ApplyPut b p).id = b.id ∧
    (p.title = none → (v2ApplyPut b p).title = b.title) ∧
    (p.author = none → (v2ApplyPut b p).author = b.author) ∧
    (p.genre = none → (v2ApplyPut b p).genre = b.genre) ∧
    (p.publication = none → (v2ApplyPut b p).publication = b.publication) ∧
    (p.pubDateStr = none → (v2ApplyPut b p).pubDate = b.pubDate) ∧
    (p.descr = none → (v2ApplyPut b p).descr = b.descr) := by
  refine ⟨?_, rfl, ?_, ?_, ?_, ?_, ?_, ?_⟩
  · simp only [v2BookItemPut, hfind]
    rw [if_neg hvalid]
  all_goals
    intro h
    simp [v2ApplyPut, h]

/-- C7, witness: updating only the title of a stored book keeps its
author, genre, publication, date and description. -/
theorem c7_put_partial_update_witness :
    v2BookItemPut [⟨1, "t", "a", "g", "pub", some ⟨2020, 1, 1⟩, "d"⟩] 1
        { title := some "t2" } =
      (.ok (toDictV2 (v2ApplyPut ⟨1, "t", "a", "g", "pub", some ⟨2020, 1, 1⟩, "d"⟩
          { title := some "t2" })),
        [⟨1, "t2", "a", "g", "pub", some ⟨2020, 1, 1⟩, "d"⟩]) ∧
      (v2ApplyPut ⟨1, "t", "a", "g", "pub", some ⟨2020, 1, 1⟩, "d"⟩
          { title := some "t2" }).author = "a" := by
  have h := c7_put_partial_update [⟨1, "t", "a", "g", "pub", some ⟨2020, 1, 1⟩, "d"⟩]
    1 { title := some "t2" } ⟨1, "t", "a", "g", "pub", some ⟨2020, 1, 1⟩, "d"⟩
    (by decide) (by decide)
  refine ⟨?_, h.2.2.2.1 rfl⟩
  rw [h.1]
  refine Prod.ext rfl ?_
  decide

/-!
## Base64 round trip and signature verification
-/

theorem b64Index_b64Char (n : Nat) (h : n < 64) : b64Index (b64Char n) = some n := by
  revert h
  revert n
  decide

theorem b64Char_ne_pad (n : Nat) (h : n < 64) : (b64Char n == '=') = false := by
  revert h
  revert n
  decide

theorem b64_roundtrip : ∀ l : List Nat, (∀ x ∈ l, x < 256) →
    b64decode (b64encode l) = some l
  | [], _ => rfl
  | [a], h => by
    have ha : a < 256 := h a (by simp)
    have h1 := b64Index_b64Char (a / 4) (by omega)
    have h2 := b64Index_b64Char (a % 4 * 16) (by omega)
    simp only [b64encode, b64decode, List.isEmpty_nil, Bool.and_true, h1, h2]
    rw [if_pos (by simp)]
    rw [if_pos (by simp [Nat.mul_mod_left])]
    have : a / 4 * 4 + a % 4 * 16 / 16 = a := by omega
    rw [this]
  | [a, b], h => by
    have ha : a < 256 := h a (by simp)
    have hb : b < 256 := h b (by simp)
    have h1 := b64Index_b64Char (a / 4) (by omega)
    have h2 := b64Index_b64Char (a % 4 * 16 + b / 16) (by omega)
    have h3 := b64Index_b64Char (b % 16 * 4) (by omega)
    simp only [b64encode, b64decode, List.isEmpty_nil, Bool.and_true, h1, h2, h3]
    rw [if_neg (by simp [b64Char_ne_pad (b % 16 * 4) (by omega)])]
    rw [if_pos (by simp)]
    rw [if_pos (by simp [Nat.mul_mod_left])]
    have e1 : (a / 4) * 4 + (a % 4 * 16 + b / 16) / 16 = a := by omega
    have e2 : (a % 4 * 16 + b / 16) % 16 * 16 + b % 16 * 4 / 4 = b := by omega
    rw [e1, e2]
  | a :: b :: c :: rest, h => by
    have ha : a < 256 := h a (by simp)
    have hb : b < 256 := h b (by simp)
    have hc : c < 256 := h c (by simp)
    have ih := b64_roundtrip rest (fun x hx => h x (by simp [hx]))
    have h1 := b64Index_b64Char (a / 4) (by omega)
    have h2 := b64Index_b64Char (a % 4 * 16 + b / 16) (by omega)
    have h3 := b64Index_b64Char (b % 16 * 4 + c / 64) (by omega)
    have h4 := b64Index_b64Char (c % 64) (by omega)
    simp only [b64encode, b64decode]
    rw [if_neg (by simp [b64Char_ne_pad (b % 16 * 4 + c / 64) (by omega)])]
    rw [if_neg (by simp [b64Char_ne_pad (c % 64) (by omega)])]
    simp only [h1, h2, h3, h4, ih]
    have e1 : (a / 4) * 4 + (a % 4 * 16 + b / 16) / 16 = a := by omega
    have e2 : (a % 4 * 16 + b / 16) % 16 * 16 + (b % 16 * 4 + c / 64) / 4 = b := by
      omega
    have e3 : (b % 16 * 4 + c / 64) % 4 * 64 + c % 64 = c := by omega
    rw [e1, e2, e3]

theorem b64encode_ne_nil : ∀ l : List Nat, l ≠ [] → b64encode l ≠ []
  | [], h => absurd rfl h
  | [_], _ => by simp [b64encode]
  | [_, _], _ => by simp [b64encode]
  | _ :: _ :: _ :: _, _ => by simp [b64encode]

/-- C9: after `m.sign_with(k)` the call `m.verify_signature(k)` returns
`True`, and a message whose signature field is unset verifies as `False`
under every key.  The digest function is abstract; the hypotheses — its
output is a non-empty byte string — hold of HMAC-SHA256, whose digests
are exactly 32 bytes. -/
theorem c9_sign_verify_roundtrip :
    (∀ (hm : List Nat → List Nat → List Nat) (m : PyMessage) (key : List Nat),
      (∀ x ∈ hm key (toWire m), x < 256) →
      hm key (toWire m) ≠ [] →
      verifySignature hm (signWith hm m key) key = true) ∧
    (∀ (hm : List Nat → List Nat → List Nat) (m : PyMessage) (key : List Nat),
      m.signature = none → verifySignature hm m key = false) := by
  constructor
  · intro hm m key hbytes hne
    have hsne : (String.mk (b64encode (hm key (toWire m)))).isEmpty = false := by
      rw [Bool.eq_false_iff]
      intro hemp
      have h0 := (String.isEmpty_iff _).mp hemp
      exact b64encode_ne_nil _ hne (congrArg String.data h0)
    simp only [verifySignature, signWith, hmac_sign]
    rw [if_neg (by simp [hsne])]
    show hmac_verify hm key (toWire m) (String.mk (b64encode (hm key (toWire m)))) = true
    simp only [hmac_verify]
    have htl : (String.mk (b64encode (hm key (toWire m)))).toList =
        b64encode (hm key (toWire m)) := rfl
    rw [htl, b64_roundtrip _ hbytes]
    simp
  · intro hm m key hnone
    simp [verifySignature, hnone]

/-- C9, witness: a concrete one-byte digest function signing a concrete
message verifies, and the unsigned message verifies as `False`. -/
theorem c9_sign_verify_roundtrip_witness :
    verifySignature (fun _ _ => [1])
        (signWith (fun _ _ => [1]) ⟨"S", "R", [], 0, "n", none⟩ []) [] = true ∧
      verifySignature (fun _ _ => [1]) ⟨"S", "R", [], 0, "n", none⟩ [] = false :=
  ⟨c9_sign_verify_roundtrip.1 (fun _ _ => [1]) ⟨"S", "R", [], 0, "n", none⟩ []
      (fun x hx => by
        have hx1 : x = 1 := by simpa using hx
        omega) (by simp),
    c9_sign_verify_roundtrip.2 (fun _ _ => [1]) ⟨"S", "R", [], 0, "n", none⟩ [] rfl⟩

/-!
## Replay protection
-/

theorem verifyIncoming_reject_state (hm : List Nat → List Nat → List Nat)
    (st : ServiceState) (now : Int) (msg : PyMessage) (key : List Nat)
    (h : (verifyIncoming hm st now msg key).1.1 = false) :
    (verifyIncoming hm st now msg key).2 = st := by
  rw [verifyIncoming] at h ⊢
  split_ifs at h ⊢ <;> simp_all

theorem verifyIncoming_step_keeps (hm : List Nat → List Nat → List Nat)
    (st : ServiceState) (now : Int) (msg : PyMessage) (key : List Nat)
    (n : String) (hmem : n ∈ st.seenNonces.map Prod.fst)
    (hlen : st.seenNonces.length ≤ 999) :
    n ∈ (verifyIncoming hm st now msg key).2.seenNonces.map Prod.fst ∧
      (verifyIncoming hm st now msg key).2.seenNonces.length ≤
        st.seenNonces.length + 1 := by
  rw [verifyIncoming]
  split_ifs with h1 h2 h3
  · exact ⟨hmem, Nat.le_succ _⟩
  · exact ⟨hmem, Nat.le_succ _⟩
  · exact ⟨hmem, Nat.le_succ _⟩
  · have hno : ¬1000 < (st.seenNonces ++ [(msg.nonce, msg.ts)]).length := by
      simp only [List.length_append, List.length_cons, List.length_nil]
      omega
    simp only [hno, if_false]
    constructor
    · simpa using Or.inl hmem
    · simp

theorem verifyIncoming_accept_state (hm : List Nat → List Nat → List Nat)
    (st : ServiceState) (now : Int) (msg : PyMessage) (key : List Nat)
    (hlen : st.seenNonces.length ≤ 999)
    (hacc : (verifyIncoming hm st now msg key).1.1 = true) :
    (verifyIncoming hm st now msg key).2.seenNonces =
      st.seenNonces ++ [(msg.nonce, msg.ts)] := by
  simp only [verifyIncoming] at hacc ⊢
  split_ifs at hacc ⊢ with h1 h2 h3 h4 <;>
    first
      | exact absurd hacc (by decide)
      | (exfalso
         simp only [List.length_append, List.length_cons, List.length_nil] at h4
         omega)
      | rfl

theorem runTrace_keeps (hm : List Nat → List Nat → List Nat) (n : String) :
    ∀ (calls : List (Int × PyMessage × List Nat)) (st : ServiceState),
      n ∈ st.seenNonces.map Prod.fst →
      st.seenNonces.length + calls.length ≤ 1000 →
      n ∈ (runTrace hm st calls).seenNonces.map Prod.fst := by
  intro calls
  induction calls with
  | nil => intro st hmem _; exact hmem
  | cons c cs ih =>
    intro st hmem hbud
    have hlen : st.seenNonces.length ≤ 999 := by
      simp only [List.length_cons] at hbud
      omega
    have hstep := verifyIncoming_step_keeps hm st c.1 c.2.1 c.2.2 n hmem hlen
    have hrun : runTrace hm st (c :: cs) =
        runTrace hm (verifyIncoming hm st c.1 c.2.1 c.2.2).2 cs := rfl
    rw [hrun]
    refine ih _ hstep.1 ?_
    simp only [List.length_cons] at hbud
    omega

theorem find?_nonce_isSome (l : List (String × Int)) (n : String)
    (h : n ∈ l.map Prod.fst) :
    (l.find? (fun kv => kv.1 == n)).isSome = true := by
  obtain ⟨kv, hkv, hfst⟩ := List.mem_map.mp h
  exact List.find?_isSome.mpr ⟨kv, hkv, by simp [hfst]⟩

theorem verifyIncoming_accept_not_seen (hm : List Nat → List Nat → List Nat)
    (st : ServiceState) (now : Int) (msg : PyMessage) (key : List Nat)
    (hacc : (verifyIncoming hm st now msg key).1.1 = true) :
    (st.seenNonces.find? (fun kv => kv.1 == msg.nonce)).isSome = false := by
  simp only [verifyIncoming] at hacc
  split_ifs at hacc with h1 h2 h3 h4 <;>
    first
      | exact absurd hacc (by decide)
      | exact Bool.eq_false_iff.mpr h3

/-- C10, amended: once `verify_incoming` has accepted a message, a later
message with the same nonce is rejected — `(False, "replay detected
(nonce already seen)")` when it passes the signature and freshness
checks — provided the nonce store held at most 999 entries at the
acceptance (so the acceptance itself evicts nothing) and at most
`1000 − size` further calls occur in between (so the cap never evicts
the recorded nonce).  Without those provisos the cap can evict the
accepted nonce itself — it is dropped as "oldest" when its timestamp is
minimal — after which the same nonce is accepted again
(`c10_counterexample`). -/
theorem c10_amended_replay (hm : List Nat → List Nat → List Nat)
    (s0 : ServiceState) (now0 : Int) (msg0 : PyMessage) (key0 : List Nat)
    (calls : List (Int × PyMessage × List Nat)) (now1 : Int)
    (msg1 : PyMessage) (key1 : List Nat)
    (hlen0 : s0.seenNonces.length ≤ 999)
    (hacc : (verifyIncoming hm s0 now0 msg0 key0).1.1 = true)
    (hbudget : (verifyIncoming hm s0 now0 msg0 key0).2.seenNonces.length +
      calls.length ≤ 1000)
    (hnonce : msg1.nonce = msg0.nonce) :
    (verifyIncoming hm
        (runTrace hm (verifyIncoming hm s0 now0 msg0 key0).2 calls)
        now1 msg1 key1).1.1 = false ∧
    (verifySignature hm msg1 key1 = true →
      ¬((runTrace hm (verifyIncoming hm s0 now0 msg0 key0).2 calls).allowedSkew <
        ((now1 - msg1.ts).natAbs : Int)) →
      (verifyIncoming hm
          (runTrace hm (verifyIncoming hm s0 now0 msg0 key0).2 calls)
          now1 msg1 key1).1 =
        (false, "replay detected (nonce already seen)")) := by
  have hstate : msg0.nonce ∈
      (verifyIncoming hm s0 now0 msg0 key0).2.seenNonces.map Prod.fst := by
    rw [verifyIncoming_accept_state hm s0 now0 msg0 key0 hlen0 hacc]
    simp
  have hkept : msg0.nonce ∈
      (runTrace hm (verifyIncoming hm s0 now0 msg0 key0).2 calls).seenNonces.map
        Prod.fst :=
    runTrace_keeps hm msg0.nonce calls _ hstate hbudget
  have hfound := find?_nonce_isSome _ _ hkept
  rw [← hnonce] at hfound
  constructor
  · rcases hres : (verifyIncoming hm
        (runTrace hm (verifyIncoming hm s0 now0 msg0 key0).2 calls)
        now1 msg1 key1).1.1 with _ | _
    · rfl
    · have := verifyIncoming_accept_not_seen hm _ now1 msg1 key1 hres
      rw [this] at hfound
      exact absurd hfound (by decide)
  · intro hsig hskew
    rw [verifyIncoming]
    rw [if_neg (by simp [hsig]), if_neg hskew, if_pos hfound]

/-- Digest function of the replay counterexample (any deterministic
non-empty byte output works). -/
def cxHm : List Nat → List Nat → List Nat := fun _ _ => [1]

/-- The signed message of the replay counterexample: nonce `"x"`,
timestamp 5. -/
def cxMsg : PyMessage :=
  signWith cxHm
    { sender := "Sender_MS", recipient := "UI_MS", payload := [],
      ts := 5, nonce := "x", signature := none } []

/-- A full nonce store: 1000 distinct nonces, all with timestamp 10. -/
def cxStore : List (String × Int) :=
  (List.range 1000).map (fun i => ("n" ++ natToStr i, (10 : Int)))

/-- The receiving service of the replay counterexample. -/
def cxSt : ServiceState :=
  { name := "UI_MS", hmacKey := [], seenNonces := cxStore, allowedSkew := 60 }

theorem cxStore_keys_ne (e : String × Int) (he : e ∈ cxStore) :
    (e.1 == "x") = false := by
  obtain ⟨i, _, rfl⟩ := List.mem_map.mp he
  simp only [beq_eq_false_iff_ne, ne_eq]
  intro hx
  have hd := congrArg String.data hx
  rw [String.data_append] at hd
  have h1 : ("n" : String).data = ['n'] := rfl
  have h2 : ("x" : String).data = ['x'] := rfl
  rw [h1, h2] at hd
  simp only [List.cons_append, List.cons.injEq] at hd
  exact absurd hd.1 (by decide)

theorem cxFind : cxStore.find? (fun kv => kv.1 == "x") = none :=
  List.find?_eq_none.mpr (fun e he => by rw [cxStore_keys_ne e he]; simp)

theorem cxAny : cxStore.any (fun kv => kv.1 == "x") = false := by
  rw [Bool.eq_false_iff]
  intro h
  obtain ⟨e, he, hpe⟩ := List.any_eq_true.mp h
  rw [cxStore_keys_ne e he] at hpe
  exact absurd hpe (by decide)

theorem foldl_pick_mem :
    ∀ (l : List (String × Int)) (kv0 : String × Int),
      l.foldl (fun best x => if x.2 < best.2 then x else best) kv0 ∈ kv0 :: l := by
  intro l
  induction l with
  | nil => intro kv0; simp
  | cons e t ih =>
    intro kv0
    simp only [List.foldl_cons]
    have h := ih (if e.2 < kv0.2 then e else kv0)
    rcases List.mem_cons.mp h with h1 | h2
    · rw [h1]
      split
      · exact List.mem_cons_of_mem _ (List.mem_cons_self _ _)
      · exact List.mem_cons_self _ _
    · exact List.mem_cons_of_mem _ (List.mem_cons_of_mem _ h2)

theorem minByVal_append_min (l : List (String × Int)) (x : String × Int)
    (hne : l ≠ []) (hmin : ∀ e ∈ l, x.2 < e.2) :
    minByVal (l ++ [x]) = some x.1 := by
  obtain ⟨kv, rest, rfl⟩ := List.exists_cons_of_ne_nil hne
  simp only [List.cons_append, minByVal]
  rw [List.foldl_append]
  simp only [List.foldl_cons, List.foldl_nil]
  rw [if_pos (hmin _ (foldl_pick_mem rest kv))]

theorem cxRemove : removeKey (cxStore ++ [("x", 5)]) "x" = cxStore := by
  simp only [removeKey]
  rw [List.eraseP_append, if_neg (by rw [cxAny]; simp)]
  simp

set_option maxRecDepth 4000 in
theorem cxFirstCall : verifyIncoming cxHm cxSt 5 cxMsg [] = ((true, "ok"), cxSt) := by
  have hsig : verifySignature cxHm cxMsg [] = true := by decide
  have hn : cxMsg.nonce = "x" := rfl
  have hts : cxMsg.ts = 5 := rfl
  have hlen : (cxStore ++ [("x", (5 : Int))]).length = 1001 := by
    simp [cxStore]
  rw [verifyIncoming]
  rw [if_neg (by rw [hsig]; decide)]
  rw [if_neg (by rw [hts]; decide)]
  rw [if_neg (by
    show ¬(cxSt.seenNonces.find? (fun kv => kv.1 == cxMsg.nonce)).isSome = true
    simp only [hn]
    have : cxSt.seenNonces = cxStore := rfl
    rw [this, cxFind]
    simp)]
  have hseen : cxSt.seenNonces ++ [(cxMsg.nonce, cxMsg.ts)] = cxStore ++ [("x", 5)] := rfl
  rw [hseen]
  simp only [hlen]
  rw [if_pos (by omega)]
  rw [minByVal_append_min cxStore ("x", 5) ?hne ?hmin]
  case hne =>
    have : cxStore.length = 1000 := by simp [cxStore]
    intro hnil
    rw [hnil] at this
    simp at this
  case hmin =>
    intro e he
    obtain ⟨i, _, rfl⟩ := List.mem_map.mp he
    show (5 : Int) < 10
    decide
  show ((true, "ok"),
      { name := cxSt.name, hmacKey := cxSt.hmacKey,
        seenNonces := removeKey (cxStore ++ [("x", 5)]) "x",
        allowedSkew := cxSt.allowedSkew }) = ((true, "ok"), cxSt)
  rw [cxRemove]
  rfl

/-- C10, counterexample.  A service whose nonce store already holds 1000
entries, all with timestamp 10, accepts a fresh message (nonce `"x"`,
timestamp 5); the over-full store then evicts its minimal-timestamp
entry — which is `"x"` itself.  An immediate replay of the *same*
message, with zero other nonces recorded in between, is accepted again
with `(True, "ok")` instead of being rejected as a replay. -/
theorem c10_counterexample :
    (verifyIncoming cxHm cxSt 5 cxMsg []).1 = (true, "ok") ∧
      (verifyIncoming cxHm (verifyIncoming cxHm cxSt 5 cxMsg []).2
        5 cxMsg []).1 = (true, "ok") := by
  refine ⟨by rw [cxFirstCall], ?_⟩
  rw [cxFirstCall]
  show (verifyIncoming cxHm cxSt 5 cxMsg []).1 = (true, "ok")
  rw [cxFirstCall]

/-- C10, witness: a fresh service accepts the signed message and, with
no other calls in between, rejects its immediate replay with the replay
error. -/
theorem c10_amended_replay_witness :
    (verifyIncoming cxHm ⟨"UI_MS", [], [], 60⟩ 5 cxMsg []).1.1 = true ∧
      (verifyIncoming cxHm
          (runTrace cxHm (verifyIncoming cxHm ⟨"UI_MS", [], [], 60⟩ 5 cxMsg []).2 [])
          5 cxMsg []).1 = (false, "replay detected (nonce already seen)") :=
  ⟨by decide,
    (c10_amended_replay cxHm ⟨"UI_MS", [], [], 60⟩ 5 cxMsg [] [] 5 cxMsg []
        (by decide) (by decide) (by decide) rfl).2 (by decide) (by decide)⟩

/-!
## The date parsers against the specification's parser
-/

theorem daysInMonth_le_31 (y m : Nat) : daysInMonth y m ≤ 31 := by
  rw [daysInMonth]
  split_ifs <;> omega

theorem mkDate_eq_spec (y m d : Nat) (hy : y ≤ 9999) :
    mkDate y m d =
      if 1 ≤ y ∧ 1 ≤ m ∧ m ≤ 12 ∧ 1 ≤ d ∧ d ≤ daysInMonth y m then
        some ⟨y, m, d⟩
      else none := by
  simp only [mkDate, dateValid, Bool.and_eq_true, decide_eq_true_eq]
  split_ifs with h1 h2 <;> first | rfl | omega

theorem isDig_bounds (c : Char) (h : isDig c = true) :
    48 ≤ c.toNat ∧ c.toNat ≤ 57 := by
  simp only [isDig, Bool.and_eq_true, decide_eq_true_eq] at h
  obtain ⟨h1, h2⟩ := h
  rw [Char.le_def] at h1 h2
  exact ⟨h1, h2⟩

theorem digVal_le9 (c : Char) (h : isDig c = true) : digVal c ≤ 9 := by
  have := isDig_bounds c h
  rw [digVal]
  omega

theorem char_as_ofNat (c : Char) (h : isDig c = true) :
    c = Char.ofNat (48 + digVal c) ∧ digVal c < 10 := by
  obtain ⟨h1, h2⟩ := isDig_bounds c h
  constructor
  · rw [digVal, show 48 + (c.toNat - 48) = c.toNat by omega]
    exact (Char.ofNat_toNat c).symm
  · rw [digVal]
    omega

theorem foldl_digits_le (cs : List Char) :
    ∀ acc : Nat, (∀ c ∈ cs, isDig c = true) →
      cs.foldl (fun acc c => acc * 10 + digVal c) acc ≤
        acc * 10 ^ cs.length + (10 ^ cs.length - 1) := by
  induction cs with
  | nil => intro acc _; simp
  | cons c t ih =>
    intro acc hdig
    have hd9 : digVal c ≤ 9 := digVal_le9 c (hdig c (by simp))
    have hih := ih (acc * 10 + digVal c) (fun x hx => hdig x (by simp [hx]))
    have hX : 1 ≤ 10 ^ t.length := Nat.one_le_pow _ _ (by omega)
    have e1 : (acc * 10 + digVal c) * 10 ^ t.length =
        10 * (acc * 10 ^ t.length) + digVal c * 10 ^ t.length := by ring
    have e2 : acc * 10 ^ (t.length + 1) = 10 * (acc * 10 ^ t.length) := by ring
    have e3 : (10 : Nat) ^ (t.length + 1) = 10 * 10 ^ t.length := by ring
    have e4 : digVal c * 10 ^ t.length ≤ 9 * 10 ^ t.length :=
      Nat.mul_le_mul_right _ hd9
    simp only [List.foldl_cons, List.length_cons]
    omega

theorem digitsToNat_le (cs : List Char) (h : ∀ c ∈ cs, isDig c = true) :
    digitsToNat cs ≤ 10 ^ cs.length - 1 := by
  have := foldl_digits_le cs 0 h
  simpa [digitsToNat] using this

theorem digitsToNat_two (a b : Char) :
    digitsToNat [a, b] = digVal a * 10 + digVal b := by
  simp [digitsToNat]

theorem matchMD_digits : ∀ E F G H : Fin 10,
    (match matchMD [Char.ofNat (48 + E.val), Char.ofNat (48 + F.val),
        Char.ofNat (48 + G.val), Char.ofNat (48 + H.val)] with
     | some (m, d, rest) => if rest.isEmpty then some (m, d) else none
     | none => (none : Option (Nat × Nat))) =
    if 1 ≤ E.val * 10 + F.val ∧ E.val * 10 + F.val ≤ 12 ∧
        1 ≤ G.val * 10 + H.val ∧ G.val * 10 + H.val ≤ 31 then
      some (E.val * 10 + F.val, G.val * 10 + H.val)
    else none := by
  decide

/-- The `%m%d` regex consumes at most four characters, so on four digits
followed by any ninth character the whole-string-consumed check of
`strptime` always fails. -/
theorem matchMD_digits_nl : ∀ E F G H : Fin 10,
    (match matchMD [Char.ofNat (48 + E.val), Char.ofNat (48 + F.val),
        Char.ofNat (48 + G.val), Char.ofNat (48 + H.val), '\n'] with
     | some (m, d, rest) => if rest.isEmpty then some (m, d) else none
     | none => (none : Option (Nat × Nat))) = none := by
  decide

theorem digVal_ofNat (E : Nat) (h : E < 10) :
    digVal (Char.ofNat (48 + E)) = E := by
  revert h
  revert E
  decide

theorem match_through (Y : Nat) (v : Option (Nat × Nat × List Char)) :
    (match v with
     | none => none
     | some (m, d, r) => if r.isEmpty then mkDate Y m d else none) =
    (match (match v with
        | some (m, d, r) => if r.isEmpty then some (m, d) else none
        | none => (none : Option (Nat × Nat))) with
     | some (m, d) => mkDate Y m d
     | none => none) := by
  rcases v with _ | ⟨m, d, r⟩
  · rfl
  · rcases r with _ | ⟨x, r⟩ <;> rfl

theorem matchMD_digits_nat (E F G H : Nat) (hE : E < 10) (hF : F < 10)
    (hG : G < 10) (hH : H < 10) :
    (match matchMD [Char.ofNat (48 + E), Char.ofNat (48 + F),
        Char.ofNat (48 + G), Char.ofNat (48 + H)] with
     | some (m, d, rest) => if rest.isEmpty then some (m, d) else none
     | none => (none : Option (Nat × Nat))) =
    if 1 ≤ E * 10 + F ∧ E * 10 + F ≤ 12 ∧ 1 ≤ G * 10 + H ∧ G * 10 + H ≤ 31 then
      some (E * 10 + F, G * 10 + H)
    else none :=
  matchMD_digits ⟨E, hE⟩ ⟨F, hF⟩ ⟨G, hG⟩ ⟨H, hH⟩

theorem matchMD_nl_nat (E F G H : Nat) (hE : E < 10) (hF : F < 10)
    (hG : G < 10) (hH : H < 10) :
    (match matchMD [Char.ofNat (48 + E), Char.ofNat (48 + F),
        Char.ofNat (48 + G), Char.ofNat (48 + H), '\n'] with
     | some (m, d, rest) => if rest.isEmpty then some (m, d) else none
     | none => (none : Option (Nat × Nat))) = none :=
  matchMD_digits_nl ⟨E, hE⟩ ⟨F, hF⟩ ⟨G, hG⟩ ⟨H, hH⟩

/-- On an exactly-8-digit string, CPython `strptime("%Y%m%d")` computes
precisely the specification's parse. -/
theorem strptimeYmd_eq_spec_8 (s : String) (hc8 : s.toList.length = 8)
    (hcd : s.toList.all isDig = true) : strptimeYmd s = dateSpecParse s := by
  rw [dateSpecParse, if_pos ⟨hc8, hcd⟩]
  obtain ⟨a, b, c, d, e, f, g, h, hcs⟩ :
      ∃ a b c d e f g h, s.toList = [a, b, c, d, e, f, g, h] := by
    have h8 := hc8
    rcases hl : s.toList with
        _ | ⟨a, _ | ⟨b, _ | ⟨c, _ | ⟨d, _ | ⟨e, _ | ⟨f, _ | ⟨g, _ | ⟨h, t⟩⟩⟩⟩⟩⟩⟩⟩ <;>
      rw [hl] at h8 <;>
      simp only [List.length_cons, List.length_nil] at h8 <;>
      first
        | omega
        | (have ht : t = [] := List.eq_nil_of_length_eq_zero (by omega)
           exact ⟨a, b, c, d, e, f, g, h, by rw [ht]⟩)
  have hds : ∀ x ∈ s.toList, isDig x = true := List.all_eq_true.mp hcd
  rw [hcs] at hds
  have hda : isDig a = true := hds a (by simp)
  have hdb : isDig b = true := hds b (by simp)
  have hdc : isDig c = true := hds c (by simp)
  have hdd : isDig d = true := hds d (by simp)
  have hde : isDig e = true := hds e (by simp)
  have hdf : isDig f = true := hds f (by simp)
  have hdg : isDig g = true := hds g (by simp)
  have hdh : isDig h = true := hds h (by simp)
  have hy9999 : digitsToNat [a, b, c, d] ≤ 9999 := by
    have hb4 := digitsToNat_le [a, b, c, d] (by
      intro x hx
      simp only [List.mem_cons, List.not_mem_nil, or_false] at hx
      rcases hx with rfl | rfl | rfl | rfl <;> assumption)
    simpa using hb4
  have hYm : matchY s.toList = some (digitsToNat [a, b, c, d], [e, f, g, h]) := by
    rw [hcs]
    simp [matchY, hda, hdb, hdc, hdd]
  simp only [strptimeYmd, hYm]
  rw [hcs]
  simp only [List.take_succ_cons, List.take_zero, List.drop_succ_cons,
    List.drop_zero]
  rw [digitsToNat_two e f, digitsToNat_two g h]
  obtain ⟨hEe, hE10⟩ := char_as_ofNat e hde
  obtain ⟨hFf, hF10⟩ := char_as_ofNat f hdf
  obtain ⟨hGg, hG10⟩ := char_as_ofNat g hdg
  obtain ⟨hHh, hH10⟩ := char_as_ofNat h hdh
  rw [hEe, hFf, hGg, hHh]
  rw [digVal_ofNat (digVal e) hE10, digVal_ofNat (digVal f) hF10,
    digVal_ofNat (digVal g) hG10, digVal_ofNat (digVal h) hH10]
  rw [match_through]
  rw [matchMD_digits_nat (digVal e) (digVal f) (digVal g) (digVal h)
    hE10 hF10 hG10 hH10]
  by_cases hcond : 1 ≤ digVal e * 10 + digVal f ∧ digVal e * 10 + digVal f ≤ 12 ∧
      1 ≤ digVal g * 10 + digVal h ∧ digVal g * 10 + digVal h ≤ 31
  · rw [if_pos hcond]
    show mkDate (digitsToNat [a, b, c, d]) (digVal e * 10 + digVal f)
        (digVal g * 10 + digVal h) = _
    rw [mkDate_eq_spec _ _ _ hy9999]
  · rw [if_neg hcond]
    show (none : Option PyDate) = _
    rw [if_neg (fun hspec => hcond ⟨hspec.2.1, hspec.2.2.1, hspec.2.2.2.1,
      le_trans hspec.2.2.2.2 (daysInMonth_le_31 _ _)⟩)]

/-- On eight digits followed by a final newline — the extra inputs the
`^\d{8}$` anchor admits — `strptime("%Y%m%d")` raises: its first regex
match never consumes the ninth character. -/
theorem strptimeYmd_nl_none (s : String) (h9 : s.toList.length = 9)
    (hd8 : (s.toList.take 8).all isDig = true)
    (hnl : s.toList.getLast? = some '\n') : strptimeYmd s = none := by
  obtain ⟨a, b, c, d, e, f, g, h, x, hcs⟩ :
      ∃ a b c d e f g h x, s.toList = [a, b, c, d, e, f, g, h, x] := by
    have h8 := h9
    rcases hl : s.toList with
        _ | ⟨a, _ | ⟨b, _ | ⟨c, _ | ⟨d, _ | ⟨e, _ | ⟨f, _ | ⟨g, _ | ⟨h, _ | ⟨x, t⟩⟩⟩⟩⟩⟩⟩⟩⟩ <;>
      rw [hl] at h8 <;>
      simp only [List.length_cons, List.length_nil] at h8 <;>
      first
        | omega
        | (have ht : t = [] := List.eq_nil_of_length_eq_zero (by omega)
           exact ⟨a, b, c, d, e, f, g, h, x, by rw [ht]⟩)
  rw [hcs] at hnl
  have hxnl : x = '\n' := by
    have hx : ([a, b, c, d, e, f, g, h, x] : List Char).getLast? = some x := rfl
    rw [hx] at hnl
    exact Option.some.inj hnl
  subst hxnl
  rw [hcs] at hd8
  simp only [List.take_succ_cons, List.take_zero, List.all_cons, List.all_nil,
    Bool.and_eq_true, Bool.and_true] at hd8
  obtain ⟨hda, hdb, hdc, hdd, hde, hdf, hdg, hdh⟩ := hd8
  have hYm : matchY s.toList = some (digitsToNat [a, b, c, d], [e, f, g, h, '\n']) := by
    rw [hcs]
    simp [matchY, hda, hdb, hdc, hdd]
  simp only [strptimeYmd, hYm]
  obtain ⟨hEe, hE10⟩ := char_as_ofNat e hde
  obtain ⟨hFf, hF10⟩ := char_as_ofNat f hdf
  obtain ⟨hGg, hG10⟩ := char_as_ofNat g hdg
  obtain ⟨hHh, hH10⟩ := char_as_ofNat h hdh
  rw [hEe, hFf, hGg, hHh]
  rw [match_through]
  rw [matchMD_nl_nat (digVal e) (digVal f) (digVal g) (digVal h)
    hE10 hF10 hG10 hH10]

/-- C1 (part): `parse_api_date` of the original variant — the `^\d{8}$`
pre-check (which also admits one trailing newline) followed by CPython
`strptime("%Y%m%d")` — agrees with the specification's parser on every
ASCII string: `strptime`'s whole-string check rejects exactly the
trailing-newline inputs the regex admits. -/
theorem parse_api_date_eq_spec (s : String) : parse_api_date s = dateSpecParse s := by
  by_cases hemp : s.isEmpty
  · have hs : s = "" := (String.isEmpty_iff s).mp hemp
    subst hs
    decide
  · rw [parse_api_date, if_neg hemp]
    by_cases hA : (s.toList.length == 8 && s.toList.all isDig) = true
    case pos =>
      obtain ⟨hc8, hcd⟩ : s.toList.length = 8 ∧ s.toList.all isDig = true := by
        simp only [Bool.and_eq_true, beq_iff_eq] at hA
        exact hA
      rw [if_pos (by rw [reMatch8d, hA, Bool.true_or])]
      exact strptimeYmd_eq_spec_8 s hc8 hcd
    case neg =>
      by_cases hB : (s.toList.length == 9 && (s.toList.take 8).all isDig &&
          s.toList.getLast? == some '\n') = true
      case pos =>
        obtain ⟨⟨h9, hd8⟩, hnl⟩ : (s.toList.length = 9 ∧
            (s.toList.take 8).all isDig = true) ∧
            s.toList.getLast? = some '\n' := by
          simp only [Bool.and_eq_true, beq_iff_eq] at hB
          exact hB
        rw [if_pos (by rw [reMatch8d, hB, Bool.or_true])]
        rw [strptimeYmd_nl_none s h9 hd8 hnl]
        rw [dateSpecParse,
          if_neg (fun hand => absurd (hand.1.symm.trans h9) (by decide))]
      case neg =>
        rw [if_neg (by
          rw [reMatch8d]
          simp only [Bool.or_eq_true]
          rintro (hh | hh)
          · exact hA hh
          · exact hB hh)]
        rw [dateSpecParse, if_neg (fun hand => hA (by rw [hand.1, hand.2]; decide))]

/-- C1 (part): `parse_yyyymmdd` of variant 2 computes the
specification's parse of its input *with one string-final newline
removed* — the exact latitude the regex anchor `$` grants it.  In
particular it accepts `"YYYYMMDD\n"`, which the claim as stated does
not allow. -/
theorem parse_yyyymmdd_eq_spec (s : String) :
    parse_yyyymmdd s = dateSpecParse (stripFinalNewline s) := by
  by_cases hemp : s.isEmpty
  · have hs : s = "" := (String.isEmpty_iff s).mp hemp
    subst hs
    decide
  · rw [parse_yyyymmdd, if_neg hemp]
    by_cases hnl : s.toList.getLast? = some '\n'
    case neg =>
      have hstrip : stripFinalNewline s = s := by
        rw [stripFinalNewline, if_neg (fun hcontra => hnl (eq_of_beq hcontra))]
      rw [hstrip]
      have hBfalse : (s.toList.length == 9 && (s.toList.take 8).all isDig &&
          s.toList.getLast? == some '\n') = false := by
        have hlast : (s.toList.getLast? == some '\n') = false := by
          cases hq : s.toList.getLast? == some '\n' with
          | false => rfl
          | true => exact absurd (eq_of_beq hq) hnl
        rw [hlast, Bool.and_false]
      by_cases hA : (s.toList.length == 8 && s.toList.all isDig) = true
      case pos =>
        obtain ⟨hc8, hcd⟩ : s.toList.length = 8 ∧ s.toList.all isDig = true := by
          simp only [Bool.and_eq_true, beq_iff_eq] at hA
          exact hA
        rw [if_pos (by rw [reMatch8d, hA, Bool.true_or])]
        rw [dateSpecParse, if_pos ⟨hc8, hcd⟩]
        have hday : (s.toList.drop 6).take 2 = s.toList.drop 6 :=
          List.take_of_length_le (by rw [List.length_drop, hc8])
        rw [hday]
        have hall4 : ∀ c ∈ s.toList.take 4, isDig c = true := fun c hcm =>
          List.all_eq_true.mp hcd c (List.mem_of_mem_take hcm)
        have hy : digitsToNat (s.toList.take 4) ≤ 9999 := by
          have := digitsToNat_le _ hall4
          rw [List.length_take, hc8] at this
          simpa using this
        exact mkDate_eq_spec _ _ _ hy
      case neg =>
        rw [if_neg (by rw [reMatch8d, hBfalse, Bool.or_false]; exact hA)]
        rw [dateSpecParse, if_neg (fun hand => hA (by rw [hand.1, hand.2]; decide))]
    case pos =>
      have hstrip : stripFinalNewline s = String.mk s.toList.dropLast := by
        rw [stripFinalNewline, if_pos (by rw [hnl]; decide)]
      rw [hstrip]
      have hmem : '\n' ∈ s.toList := List.mem_of_mem_getLast? hnl
      have hAfalse : (s.toList.length == 8 && s.toList.all isDig) = false := by
        cases hall : s.toList.all isDig with
        | false => simp [hall]
        | true => exact absurd (List.all_eq_true.mp hall '\n' hmem) (by decide)
      have hlenpos : s.toList ≠ [] := by
        intro h0
        rw [h0] at hnl
        simp at hnl
      have htodl : (String.mk s.toList.dropLast).toList = s.toList.dropLast := rfl
      by_cases h9 : s.toList.length = 9
      case pos =>
        have hdl : s.toList.dropLast = s.toList.take 8 := by
          rw [List.dropLast_eq_take, h9]
        by_cases hd8 : (s.toList.take 8).all isDig = true
        case pos =>
          rw [if_pos (by
            rw [reMatch8d, hAfalse, Bool.false_or]
            have h1 : (s.toList.length == 9) = true := by
              rw [h9]
              decide
            have h2 : (s.toList.getLast? == some '\n') = true := by
              rw [hnl]
              decide
            rw [h1, hd8, h2]
            decide)]
          rw [dateSpecParse]
          rw [if_pos (show (String.mk s.toList.dropLast).toList.length = 8 ∧
              (String.mk s.toList.dropLast).toList.all isDig = true by
            rw [htodl, hdl]
            exact ⟨by rw [List.length_take, h9]; decide, hd8⟩)]
          rw [htodl, hdl]
          have e1 : (s.toList.take 8).take 4 = s.toList.take 4 := by
            rw [List.take_take]
            norm_num
          have e2 : ((s.toList.take 8).drop 4).take 2 = (s.toList.drop 4).take 2 := by
            rw [List.drop_take, List.take_take]
            norm_num
          have e3 : (s.toList.take 8).drop 6 = (s.toList.drop 6).take 2 := by
            rw [List.drop_take]
          rw [e1, e2, e3]
          have hall4 : ∀ c ∈ s.toList.take 4, isDig c = true := by
            intro c hc
            rw [← e1] at hc
            exact List.all_eq_true.mp hd8 c (List.mem_of_mem_take hc)
          have hy : digitsToNat (s.toList.take 4) ≤ 9999 := by
            have := digitsToNat_le _ hall4
            rw [List.length_take, h9] at this
            simpa using this
          exact mkDate_eq_spec _ _ _ hy
        case neg =>
          rw [if_neg (by
            rw [reMatch8d, hAfalse, Bool.false_or, Bool.eq_false_iff.mpr hd8]
            simp)]
          rw [dateSpecParse, if_neg (fun hand => hd8 (by
            have h2 := hand.2
            rw [htodl, hdl] at h2
            exact h2))]
      case neg =>
        rw [if_neg (by
          rw [reMatch8d, hAfalse, Bool.false_or]
          have h1 : (s.toList.length == 9) = false := by
            cases hq : s.toList.length == 9 with
            | false => rfl
            | true => exact absurd (eq_of_beq hq) h9
          rw [h1]
          simp)]
        rw [dateSpecParse, if_neg (fun hand => ?_)]
        have hlen1 : 1 ≤ s.toList.length := List.length_pos.mpr hlenpos
        have h1 := hand.1
        rw [htodl, List.length_dropLast] at h1
        exact h9 (by omega)

theorem space_not_dig (c : Char) (h : isPySpace c = true) : isDig c = false := by
  simp only [isPySpace, Bool.or_eq_true, beq_iff_eq] at h
  rcases h with ((((rfl | rfl) | rfl) | rfl) | rfl) | rfl <;> decide

theorem dropWhile_digits (cs : List Char) (h : ∀ c ∈ cs, isDig c = true) :
    cs.dropWhile isPySpace = cs := by
  cases cs with
  | nil => rfl
  | cons c t =>
    have hns : isPySpace c = false := by
      cases hs : isPySpace c with
      | false => rfl
      | true => exact absurd (h c (by simp)) (by simp [space_not_dig c hs])
    simp [List.dropWhile_cons, hns]

theorem strip_digits (cs : List Char) (h : ∀ c ∈ cs, isDig c = true) :
    ((cs.dropWhile isPySpace).reverse.dropWhile isPySpace).reverse = cs := by
  rw [dropWhile_digits cs h,
    dropWhile_digits cs.reverse (fun c hc => h c (List.mem_reverse.mp hc)),
    List.reverse_reverse]

/-- C1 (part): the positive direction for variant 4 — every valid
8-digit `YYYYMMDD` string parses to its calendar date there too (its
`strip()` leaves an all-digit string unchanged, and the `"%Y%m%d"`
attempt succeeds before any fallback is consulted). -/
theorem parse_yyyymmdd_v4_valid (fb : String → Option PyDate) (s : String)
    (d : PyDate) (hspec : dateSpecParse s = some d) :
    parse_yyyymmdd_v4 fb s = some d := by
  have hcond : s.toList.length = 8 ∧ s.toList.all isDig = true := by
    by_contra hneg
    rw [dateSpecParse, if_neg hneg] at hspec
    exact absurd hspec (by simp)
  obtain ⟨hc8, hcd⟩ := hcond
  have hne : ¬s.isEmpty = true := by
    intro he
    rw [(String.isEmpty_iff s).mp he] at hc8
    simp at hc8
  have hapi : parse_api_date s = some d := by
    rw [parse_api_date_eq_spec s, hspec]
  rw [parse_api_date, if_neg hne,
    if_pos (by
      rw [reMatch8d]
      have h1 : (s.toList.length == 8) = true := by
        rw [hc8]
        decide
      rw [h1, hcd, Bool.true_and, Bool.true_or])] at hapi
  have hstrip : String.mk
      (((s.toList.dropWhile isPySpace).reverse.dropWhile isPySpace).reverse) = s := by
    rw [strip_digits _ (List.all_eq_true.mp hcd)]
    cases s
    rfl
  simp only [parse_yyyymmdd_v4]
  rw [if_neg hne, hstrip, hapi]

/-- C1, amended: restricted to ASCII input strings (Python's `\d`,
`int()` and `strptime` additionally accept non-ASCII Unicode decimal
digits, outside this embedding's domain), the claimed characterization
holds exactly for `parse_api_date` (original); `parse_yyyymmdd`
(variant 2) satisfies it up to the regex anchor `$` also matching
before one string-final newline, so it computes the specification's
parse of the input with one final `'\n'` removed and in particular
accepts `"YYYYMMDD\n"`; and variant 4's `parse_yyyymmdd` keeps only the
positive direction — every valid 8-digit `YYYYMMDD` string parses to
its date — while also accepting other formats (see the
counterexample). -/
theorem c1_amended_parsers_match_spec (s : String)
    (_hascii : ∀ c ∈ s.toList, c.toNat < 128) :
    parse_api_date s = dateSpecParse s ∧
      parse_yyyymmdd s = dateSpecParse (stripFinalNewline s) ∧
      (∀ (fb : String → Option PyDate) (d : PyDate),
        dateSpecParse s = some d → parse_yyyymmdd_v4 fb s = some d) :=
  ⟨parse_api_date_eq_spec s, parse_yyyymmdd_eq_spec s,
    fun fb d hd => parse_yyyymmdd_v4_valid fb s d hd⟩

/-- C1, witness: the amended characterization at `"20200101"` (all three
parsers) and at `"20200101\n"` (variant 2's newline latitude). -/
theorem c1_amended_parsers_match_spec_witness :
    parse_api_date "20200101" = dateSpecParse "20200101" ∧
      parse_yyyymmdd "20200101\n" = dateSpecParse (stripFinalNewline "20200101\n") ∧
      parse_yyyymmdd_v4 (fun _ => none) "20200101" = some ⟨2020, 1, 1⟩ :=
  ⟨(c1_amended_parsers_match_spec "20200101" (by decide)).1,
    (c1_amended_parsers_match_spec "20200101\n" (by decide)).2.1,
    (c1_amended_parsers_match_spec "20200101" (by decide)).2.2
      (fun _ => none) ⟨2020, 1, 1⟩ (by decide)⟩

/-- C1, counterexample.  The claim demands a failure on every string
that is not an 8-digit `YYYYMMDD`, for all three cited parsers.  Two of
them return dates on such strings: variant 2's `parse_yyyymmdd` accepts
`"20200101\n"` (nine characters — Python's `$` matches before a final
newline), and variant 4's `parse_yyyymmdd` accepts ISO `"2020-01-01"`
(ten characters — its `strptime("%Y-%m-%d")` attempt).  The
specification's parser rejects both strings. -/
theorem c1_counterexample :
    parse_yyyymmdd "20200101\n" = some ⟨2020, 1, 1⟩ ∧
      dateSpecParse "20200101\n" = none ∧
      parse_yyyymmdd_v4 (fun _ => none) "2020-01-01" = some ⟨2020, 1, 1⟩ ∧
      dateSpecParse "2020-01-01" = none :=
  ⟨by decide, by decide, by decide, by decide⟩
